import Mathlib

/-!
Shallow embedding of the segment-workflow core of the ai-video-creator
backend: the project/segment data model, the ffmpeg media operations
(duration probing, last-frame extraction, audio-duration adjustment,
muxing, concatenation), and the workflow operations (plan generation,
voice cloning, segment generation dispatch, completion check with frame
propagation, approval, regeneration, finalization).

Durations are modelled as exact rationals; media files are modelled as an
inductive value type recording provenance (so that a copied frame is
literally the same value, and a muxed file records which video and which
adjusted audio went into it).  The database session is modelled as a pure
`WorkflowState` holding one project, its segments, and a flat filesystem;
operations that raise before committing return the unchanged state (the
request-scoped session rolls back every flush when an exception escapes,
see app/db/session.py), while `clone_voice` commits explicitly inside the
operation and is modelled accordingly.
-/

namespace VideoCreator

/-- Segment workflow status, from app/db/models/segment.py. -/
inductive SegmentStatus where
  | PENDING
  | PROMPT_READY
  | APPROVED
  | GENERATING
  | GENERATED
  | SEGMENT_APPROVED
  | FAILED
deriving DecidableEq, Repr

/-- Project workflow status, from app/db/models/project.py. -/
inductive ProjectStatus where
  | DRAFT
  | PLANNED
  | CREATED
  | MEDIA_UPLOADED
  | VOICE_CLONING
  | PLAN_GENERATING
  | PLAN_READY
  | GENERATING
  | FINALIZING
  | COMPLETED
  | FAILED
deriving DecidableEq, Repr

/-- A media file's content, tracking provenance: a frame extracted from a
video records the source video's data and the extraction time offset; a
trimmed or padded audio records the original and the target duration; a
muxed file records the video and the (already adjusted) audio streams; a
concatenated file records the ordered list of its parts. -/
inductive Media where
  | videoFile (data : String) (duration : ℚ)
  | audioFile (data : String) (duration : ℚ)
  | frameImage (srcVideoData : String) (timeOffset : ℚ)
  | trimmedAudio (src : Media) (target : ℚ)
  | paddedAudio (src : Media) (target : ℚ)
  | muxed (video : Media) (audio : Media)
  | concatFiles (parts : List Media)

/-- Container duration as reported by ffprobe (`FFmpegWrapper.probe_duration`):
video and audio files carry their duration; a trimmed or padded audio has
exactly the target duration (`-t target` in both ffmpeg invocations); a muxed
segment file has its video stream's duration (the audio was pre-adjusted to
it).  Frame images and concat outputs are never probed by the modelled flows. -/
def mediaDuration : Media → ℚ
  | Media.videoFile _ d => d
  | Media.audioFile _ d => d
  | Media.frameImage _ _ => 0
  | Media.trimmedAudio _ t => t
  | Media.paddedAudio _ t => t
  | Media.muxed v _ => mediaDuration v
  | Media.concatFiles _ => 0

/-- The raw video data of a media value (used when extracting a frame). -/
def videoData : Media → String
  | Media.videoFile d _ => d
  | _ => ""

/-- The audio stream of a muxed file, if any. -/
def audioTrack : Media → Option Media
  | Media.muxed _ a => some a
  | _ => none

/-- `FFmpegWrapper.extract_last_frame`: probes the duration and extracts one
frame at time offset `max 0 (duration - 0.1)`. -/
def extract_last_frame (video : Media) : Media :=
  let duration := mediaDuration video
  Media.frameImage (videoData video) (max 0 (duration - 1/10))

/-- `FFmpegWrapper.adjust_audio_duration`: if the current duration is within
0.1s of the target the file is copied through unmodified; otherwise it is
trimmed to the target (when longer) or padded with trailing silence to the
target (when shorter). -/
def adjust_audio_duration (audio : Media) (target : ℚ) : Media :=
  let current := mediaDuration audio
  if |current - target| < 1/10 then
    audio
  else if current > target then
    Media.trimmedAudio audio target
  else
    Media.paddedAudio audio target

/-- `FFmpegWrapper.mux_segment_video_audio`: probes the video's duration,
adjusts the audio to it, and muxes the video stream with the adjusted audio
stream (the intermediate adjusted file is deleted afterwards). -/
def mux_segment_video_audio (video audio : Media) : Media :=
  let video_duration := mediaDuration video
  Media.muxed video (adjust_audio_duration audio video_duration)

/-- Storage roots, standing for `settings.storage_output` /
`settings.storage_temp` / `settings.storage_uploads`. -/
def storageOutput : String := "STORAGE/output/"

/-- Temp storage root. -/
def storageTemp : String := "STORAGE/temp/"

/-- Uploads storage root. -/
def storageUploads : String := "STORAGE/uploads/"

/-- Character-list implementation of `String.startsWith` (the library
version does not reduce inside the kernel). -/
def strStartsWith (s p : String) : Bool :=
  s.data.take p.data.length = p.data

/-- Character-list implementation of `String.drop`. -/
def strDrop (s : String) (n : Nat) : String :=
  String.mk (s.data.drop n)

/-- Character-list implementation of `String.take`. -/
def strTake (s : String) (n : Nat) : String :=
  String.mk (s.data.take n)

/-- `app.services.media_service.url_to_file_path`: maps a URL path under
`/output/`, `/temp/` or `/uploads/` to the corresponding storage path, and
returns anything else unchanged (assumed to already be a path). -/
def url_to_file_path (url : String) : String :=
  if strStartsWith url ("/output/") then storageOutput ++ strDrop url 8
  else if strStartsWith url ("/temp/") then storageTemp ++ strDrop url 6
  else if strStartsWith url ("/uploads/") then storageUploads ++ strDrop url 9
  else url

/-- The flat filesystem: an association list from path to content, most
recent write first. -/
abbrev FS := List (String × Media)

/-- Read a file. -/
def fsRead (fs : FS) (path : String) : Option Media :=
  (fs.find? (fun e => e.1 = path)).map (fun e => e.2)

/-- Write (or overwrite) a file. -/
def fsWrite (fs : FS) (path : String) (content : Media) : FS :=
  (path, content) :: fs

/-- Delete a file (`Path.unlink`). -/
def fsRemove (fs : FS) (path : String) : FS :=
  fs.filter (fun e => ¬ e.1 = path)

/-- Delete a list of files (the `finally` cleanup loop of
`finalize_project_video`). -/
def fsRemoveAll (fs : FS) (paths : List String) : FS :=
  paths.foldl fsRemove fs

/-- Segment row, from app/db/models/segment.py. -/
structure Segment where
  id : String
  project_id : String
  index : Nat
  video_prompt : Option String := none
  narration_text : Option String := none
  end_frame_prompt : Option String := none
  first_frame_url : Option String := none
  last_frame_url : Option String := none
  video_url : Option String := none
  audio_url : Option String := none
  video_task_id : Option String := none
  audio_task_id : Option String := none
  status : SegmentStatus := SegmentStatus.PENDING
  approved : Bool := false
deriving DecidableEq, Repr

/-- Project row, from app/db/models/project.py. -/
structure Project where
  id : String
  user_id : String
  name : String
  story_prompt : Option String := none
  target_duration_sec : Nat := 60
  segment_len_sec : Nat := 6
  segment_count : Nat := 0
  voice_id : Option String := none
  first_frame_url : Option String := none
  audio_sample_url : Option String := none
  final_video_url : Option String := none
  status : ProjectStatus := ProjectStatus.CREATED
deriving DecidableEq, Repr

/-- Saved reusable voice row, from app/db/models/voice.py. -/
structure Voice where
  user_id : String
  voice_id : String
  name : String
  description : String
deriving DecidableEq, Repr

/-- The persistent state one workflow request operates on: one project, its
segment rows, the saved voices, and the storage filesystem. -/
structure WorkflowState where
  project : Project
  segments : List Segment
  voices : List Voice := []
  fs : FS := []

/-- Look a segment up by primary key. -/
def getSegment (st : WorkflowState) (segment_id : String) : Option Segment :=
  st.segments.find? (fun s => s.id = segment_id)

/-- Apply an update to the single segment row with the given id. -/
def updateSegmentRow (st : WorkflowState) (segment_id : String)
    (f : Segment → Segment) : WorkflowState :=
  { st with segments := st.segments.map (fun s => if s.id = segment_id then f s else s) }

/-- `approve_segment` (app/api/v1/segments.py): requires status
`PROMPT_READY`, then sets `approved := true` and status `APPROVED`.  A wrong
status is rejected with HTTP 400 before any mutation. -/
def approve_segment (st : WorkflowState) (segment_id : String) :
    Except String WorkflowState :=
  match getSegment st segment_id with
  | none => Except.error ("Segment not found")
  | some segment =>
    if segment.status ≠ SegmentStatus.PROMPT_READY then
      Except.error ("Segment must be in prompt_ready status to approve")
    else
      Except.ok (updateSegmentRow st segment_id (fun s =>
        { s with approved := true, status := SegmentStatus.APPROVED }))

/-- `approve_generated_video` (app/api/v1/segments.py): requires status
`GENERATED`, then sets status `SEGMENT_APPROVED`. -/
def approve_generated_video (st : WorkflowState) (segment_id : String) :
    Except String WorkflowState :=
  match getSegment st segment_id with
  | none => Except.error ("Segment not found")
  | some segment =>
    if segment.status ≠ SegmentStatus.GENERATED then
      Except.error ("Segment must be in generated status to approve video")
    else
      Except.ok (updateSegmentRow st segment_id (fun s =>
        { s with status := SegmentStatus.SEGMENT_APPROVED }))

/-- `request_regenerate` (app/api/v1/segments.py): resets the segment to
`APPROVED` and clears the video reference and the video task handle.  The
source performs no status or approved-flag check beyond existence. -/
def request_regenerate (st : WorkflowState) (segment_id : String) :
    Except String WorkflowState :=
  match getSegment st segment_id with
  | none => Except.error ("Segment not found")
  | some _ =>
    Except.ok (updateSegmentRow st segment_id (fun s =>
      { s with status := SegmentStatus.APPROVED, video_url := none,
               video_task_id := none }))

/-- Prompt-field patch for `update_segment`. -/
structure SegmentUpdate where
  video_prompt : Option String := none
  narration_text : Option String := none
  end_frame_prompt : Option String := none

/-- `update_segment` (app/api/v1/segments.py): overwrites whichever prompt
fields the patch provides. -/
def update_segment (st : WorkflowState) (segment_id : String)
    (data : SegmentUpdate) : Except String WorkflowState :=
  match getSegment st segment_id with
  | none => Except.error ("Segment not found")
  | some _ =>
    Except.ok (updateSegmentRow st segment_id (fun s =>
      { s with
        video_prompt := data.video_prompt.or s.video_prompt,
        narration_text := data.narration_text.or s.narration_text,
        end_frame_prompt := data.end_frame_prompt.or s.end_frame_prompt }))

/-- `remove_last_frame` (app/api/v1/segments.py): rejected while the segment
is GENERATING; otherwise deletes the referenced frame file if present and
clears `last_frame_url`. -/
def remove_last_frame (st : WorkflowState) (segment_id : String) :
    Except String WorkflowState :=
  match getSegment st segment_id with
  | none => Except.error ("Segment not found")
  | some segment =>
    if segment.status = SegmentStatus.GENERATING then
      Except.error ("Cannot modify segment while generating")
    else
      let fs1 :=
        match segment.last_frame_url with
        | some url => fsRemove st.fs (url_to_file_path url)
        | none => st.fs
      Except.ok (updateSegmentRow { st with fs := fs1 } segment_id (fun s =>
        { s with last_frame_url := none }))

/-- `_extract_and_propagate_last_frame` (app/api/v1/segments.py): extracts
the last frame of the segment's video, stores it under
`/temp/last_frame_<id>.jpg` and records that URL as the segment's
`last_frame_url`; then, if a segment with index+1 exists in the same
project, copies the frame file to `/temp/first_frame_<next id>.jpg` and
records that URL as the next segment's `first_frame_url`.  A missing video
URL or a video file absent from storage is a logged no-op; the whole body
runs inside a catch-all, so the operation never raises. -/
def extract_and_propagate_last_frame (st : WorkflowState) (segment_id : String) :
    WorkflowState :=
  match getSegment st segment_id with
  | none => st
  | some segment =>
    match segment.video_url with
    | none => st
    | some video_url =>
      let video_path := url_to_file_path video_url
      match fsRead st.fs video_path with
      | none => st
      | some video =>
        let frame := extract_last_frame video
        let frame_filename := "last_frame_" ++ segment.id ++ ".jpg"
        let st1 := { st with fs := fsWrite st.fs (storageTemp ++ frame_filename) frame }
        let st2 := updateSegmentRow st1 segment_id (fun s =>
          { s with last_frame_url := some ("/temp/" ++ frame_filename) })
        match st.segments.find? (fun s =>
            s.project_id = segment.project_id ∧ s.index = segment.index + 1) with
        | none => st2
        | some next_segment =>
          let next_frame_filename := "first_frame_" ++ next_segment.id ++ ".jpg"
          let st3 := { st2 with
            fs := fsWrite st2.fs (storageTemp ++ next_frame_filename) frame }
          updateSegmentRow st3 next_segment.id (fun s =>
            { s with first_frame_url := some ("/temp/" ++ next_frame_filename) })

/-- Outcome of one MiniMax `query_video_status` poll as seen by
`check_segment_complete`: a finished task with a downloadable file (whose
downloaded bytes are the given media), a failed task, or a task still
processing.  Query/download errors behave like the non-success cases: the
endpoint logs and continues. -/
inductive PollResult where
  | success (video : Media)
  | failed
  | processing

/-- The success-with-file branch of `check_segment_complete`: download the
rendered video to `/output/video_<segment id>.mp4`, record the segment's
video reference, then run frame propagation. -/
def record_downloaded_video (st : WorkflowState) (segment_id : String)
    (segment : Segment) (video : Media) : WorkflowState :=
  let video_filename := "video_" ++ segment.id ++ ".mp4"
  let stv := updateSegmentRow
    { st with fs := fsWrite st.fs (storageOutput ++ video_filename) video }
    segment_id (fun s => { s with video_url := some ("/output/" ++ video_filename) })
  extract_and_propagate_last_frame stv segment_id

/-- `check_segment_complete` (app/api/v1/segments.py): if the segment is
GENERATING with a video task handle and no video reference, polls the
external task; on success-with-file it downloads the video to
`/output/video_<id>.mp4`, records the reference and runs frame
propagation.  Afterwards, if both the video and the audio reference are
present and the segment is still GENERATING, it flips the status to
GENERATED. -/
def check_segment_complete (st : WorkflowState) (segment_id : String)
    (poll : PollResult) : Except String WorkflowState :=
  match getSegment st segment_id with
  | none => Except.error ("Segment not found")
  | some segment =>
    let st1 :=
      if segment.video_task_id.isSome ∧ segment.video_url = none ∧
          segment.status = SegmentStatus.GENERATING then
        match poll with
        | PollResult.success video => record_downloaded_video st segment_id segment video
        | _ => st
      else st
    match getSegment st1 segment_id with
    | none => Except.ok st1
    | some segment1 =>
      if segment1.video_url.isSome ∧ segment1.audio_url.isSome ∧
          segment1.status = SegmentStatus.GENERATING then
        Except.ok (updateSegmentRow st1 segment_id (fun s =>
          { s with status := SegmentStatus.GENERATED }))
      else
        Except.ok st1

/-- `OrchestratorService.complete_segment_generation`: records the video
reference and unconditionally marks the segment GENERATED; a missing
segment is silently ignored. -/
def complete_segment_generation (st : WorkflowState) (segment_id : String)
    (video_url : String) : WorkflowState :=
  match getSegment st segment_id with
  | none => st
  | some _ =>
    updateSegmentRow st segment_id (fun s =>
      { s with video_url := some video_url, status := SegmentStatus.GENERATED })

/-- One entry of the plan returned by the plan-generator agent
(app/agents/plan_generator.py `SegmentPrompt`).  The duck-typed dict shape
carries the same three prompt fields and is written identically, so one
structured shape models both. -/
structure SegmentPrompt where
  segment_index : Nat
  video_prompt : String
  narration_text : String
  end_frame_prompt : String
deriving DecidableEq, Repr

/-- Insert a segment into an index-sorted list (helper for `sortByIndex`). -/
def insertByIndex (s : Segment) : List Segment → List Segment
  | [] => [s]
  | t :: rest =>
    if s.index ≤ t.index then s :: t :: rest else t :: insertByIndex s rest

/-- Sort a segment list by index (the `ORDER BY Segment.index` of the
segment queries), as an insertion sort. -/
def sortByIndex : List Segment → List Segment
  | [] => []
  | s :: rest => insertByIndex s (sortByIndex rest)

/-- Write one plan entry's prompt fields onto a segment and move it to
PROMPT_READY (the loop body of `generate_video_plan`). -/
def writePlanPrompt (s : Segment) (p : SegmentPrompt) : Segment :=
  { s with
    video_prompt := some p.video_prompt,
    narration_text := some p.narration_text,
    end_frame_prompt := some p.end_frame_prompt,
    status := SegmentStatus.PROMPT_READY }

/-- The prompt-writing loop of `OrchestratorService.generate_video_plan`:
`zip(segments, plan_segments)` pairs the project's segments, in index
order, positionally with the plan entries; each paired segment receives the
three prompt fields and status `PROMPT_READY`; segments (or plan entries)
beyond the shorter list are silently dropped. -/
def applyPlan : List Segment → List SegmentPrompt → List Segment
  | [], _ => []
  | rest, [] => rest
  | s :: rest, p :: ps => writePlanPrompt s p :: applyPlan rest ps

/-- `OrchestratorService.generate_video_plan`, success path: records the
story prompt, moves the project through PLAN_GENERATING, writes the plan's
prompts onto the segments in index order by positional zip, and leaves the
project in PLAN_READY.  (An agent failure raises before any prompt write is
committed; the rolled-back state is the input state, so only the success
path is modelled with the plan as an explicit argument.) -/
def generate_video_plan (st : WorkflowState) (story_prompt : String)
    (plan_segments : List SegmentPrompt) : WorkflowState :=
  { st with
    project := { st.project with
      story_prompt := some story_prompt,
      status := ProjectStatus.PLAN_READY },
    segments := applyPlan (sortByIndex st.segments) plan_segments }

/-- `OrchestratorService.clone_voice`: requires an audio-sample reference
(whose value is used directly as a file path) and an existing, readable
file — both precondition failures raise before the VOICE_CLONING flush, so
the state is unchanged there.  Then the status is flushed to VOICE_CLONING
and the two-step upload/clone is attempted: on success the voice id
`voice-<first 8 chars of project id>` is stored on the project, a reusable
Voice row is added, and the status is committed as MEDIA_UPLOADED; on
failure the status is likewise committed as MEDIA_UPLOADED and the error is
re-raised.  `outcome` tells whether the external upload/clone pair
succeeded.  Returns the committed state and the error, if any. -/
def clone_voice (st : WorkflowState) (outcome : Bool)
    (voice_name : Option String) : WorkflowState × Option String :=
  match st.project.audio_sample_url with
  | none => (st, some ("No audio sample uploaded"))
  | some audio_sample_url =>
    match fsRead st.fs audio_sample_url with
    | none => (st, some ("Audio file not found at path"))
    | some _ =>
      if outcome then
        let voice_id := "voice-" ++ strTake st.project.id 8
        ({ st with
           project := { st.project with
             voice_id := some voice_id,
             status := ProjectStatus.MEDIA_UPLOADED },
           voices := st.voices ++
             [{ user_id := st.project.user_id,
                voice_id := voice_id,
                name := voice_name.getD ("Voice from " ++ st.project.name),
                description := "Cloned from project " ++ st.project.name }] },
         none)
      else
        ({ st with
           project := { st.project with status := ProjectStatus.MEDIA_UPLOADED } },
         some ("Voice cloning failed"))

/-- `url_to_base64_data_url` (app/services/orchestrator_service.py): http,
https and data URLs pass through untouched; everything else is resolved to
a storage path and must exist, else a ValueError is raised.  Only existence
matters downstream, so the model returns the resolved content. -/
def url_to_base64_data_url (fs : FS) (url : String) : Except String Media :=
  if strStartsWith url ("http://") ∨ strStartsWith url ("https://") ∨
      strStartsWith url ("data:") then
    Except.ok (Media.frameImage url 0)
  else
    match fsRead fs (url_to_file_path url) with
    | none => Except.error ("File not found")
    | some m => Except.ok m

/-- `OrchestratorService.start_segment_generation`: requires an existing,
owned, approved segment; flushes segment GENERATING and project GENERATING;
resolves the first frame (segment's own, falling back to the project's) —
absence, or a frame file missing from storage, raises (rolling the flushes
back); dispatches the video-generation task and records its handle; then,
if the project has a voice and the segment has narration text, runs
text-to-speech synchronously — a TTS failure is logged and swallowed, a
success writes `/output/audio_<id>.mp3` and records `audio_url`.
`task_id` is the handle returned by the external video call and
`tts_result` the TTS outcome (`none` = the TTS call failed). -/
def start_segment_generation (st : WorkflowState) (segment_id : String)
    (task_id : String) (tts_result : Option Media) :
    Except String WorkflowState :=
  match getSegment st segment_id with
  | none => Except.error ("Segment not found")
  | some segment =>
    if segment.project_id ≠ st.project.id then
      Except.error ("Project not found or not owned by user")
    else if segment.approved = false then
      Except.error ("Segment must be approved before generation")
    else
      let first_frame_url := segment.first_frame_url.or st.project.first_frame_url
      match first_frame_url with
      | none => Except.error ("No first frame available")
      | some frame_url =>
        match url_to_base64_data_url st.fs frame_url with
        | Except.error _ => Except.error ("First frame file not found")
        | Except.ok _ =>
          let st1 := updateSegmentRow
            { st with project := { st.project with status := ProjectStatus.GENERATING } }
            segment_id (fun s =>
              { s with status := SegmentStatus.GENERATING,
                       video_task_id := some task_id })
          if st.project.voice_id.isSome ∧ segment.narration_text.isSome then
            match tts_result with
            | none => Except.ok st1
            | some audio =>
              let audio_filename := "audio_" ++ segment.id ++ ".mp3"
              Except.ok (updateSegmentRow
                { st1 with fs := fsWrite st1.fs (storageOutput ++ audio_filename) audio }
                segment_id (fun s =>
                  { s with audio_url := some ("/output/" ++ audio_filename) }))
          else
            Except.ok st1

/-- `ProjectCreate` (app/models/project.py): validated so that
`target_duration_sec ∈ [6, 60]` and `segment_len_sec ∈ [6, 10]`. -/
structure ProjectCreate where
  name : String
  story_prompt : Option String := none
  target_duration_sec : Nat := 60
  segment_len_sec : Nat := 6
deriving DecidableEq, Repr

/-- `ProjectService.create_project`: computes
`segment_count = target_duration_sec // segment_len_sec` (floor division),
creates the project in status CREATED and materializes `segment_count`
empty PENDING segments with indices `0 .. segment_count-1`.  Row ids come
from `uuid4()`; the model takes the generators as arguments. -/
def create_project (user_id : String) (project_id : String)
    (segment_ids : Nat → String) (data : ProjectCreate) : WorkflowState :=
  let segment_count := data.target_duration_sec / data.segment_len_sec
  { project :=
      { id := project_id,
        user_id := user_id,
        name := data.name,
        story_prompt := data.story_prompt,
        target_duration_sec := data.target_duration_sec,
        segment_len_sec := data.segment_len_sec,
        segment_count := segment_count,
        status := ProjectStatus.CREATED },
    segments := (List.range segment_count).map (fun i =>
      { id := segment_ids i,
        project_id := project_id,
        index := i,
        status := SegmentStatus.PENDING,
        approved := false }) }

/-- `ProjectUpdate` (app/models/project.py): optional field patch, with the
same bounds on the duration fields as at creation. -/
structure ProjectUpdate where
  name : Option String := none
  story_prompt : Option String := none
  target_duration_sec : Option Nat := none
  segment_len_sec : Option Nat := none
deriving DecidableEq, Repr

/-- `ProjectService.update_project`: overwrites the provided fields and,
when either duration field was provided, recomputes `segment_count` from
the (possibly mixed old and new) durations.  The segment rows themselves
are not touched: no segments are added or removed. -/
def update_project (st : WorkflowState) (data : ProjectUpdate) : WorkflowState :=
  let p := st.project
  let p := { p with name := data.name.getD p.name }
  let p := { p with story_prompt := data.story_prompt.or p.story_prompt }
  let p := { p with target_duration_sec := data.target_duration_sec.getD p.target_duration_sec }
  let p := { p with segment_len_sec := data.segment_len_sec.getD p.segment_len_sec }
  let p :=
    if data.target_duration_sec.isSome ∨ data.segment_len_sec.isSome then
      { p with segment_count := p.target_duration_sec / p.segment_len_sec }
    else p
  { st with project := p }

/-- The per-segment loop of `MediaService.finalize_project_video`, over the
segments sorted by index.  Returns the filesystem after the mux writes, the
ordered `(path, content)` contributions destined for concatenation, and the
temporary muxed files to clean up afterwards.  A segment without a video
reference is skipped with a logged warning; a referenced video or audio
file missing from storage raises a ValueError naming the segment's 1-based
position. -/
def collectSegmentContributions (fs : FS) :
    List Segment → Except String (FS × List (String × Media) × List String)
  | [] => Except.ok (fs, [], [])
  | segment :: rest =>
    match segment.video_url with
    | none => collectSegmentContributions fs rest
    | some video_url =>
      let video_path := url_to_file_path video_url
      match fsRead fs video_path with
      | none =>
        Except.error ("Video file not found for segment " ++ toString (segment.index + 1))
      | some video =>
        match segment.audio_url with
        | some audio_url =>
          let audio_path := url_to_file_path audio_url
          match fsRead fs audio_path with
          | none =>
            Except.error ("Audio file not found for segment " ++ toString (segment.index + 1))
          | some audio =>
            let muxed_path := storageTemp ++ "muxed_" ++ segment.id ++ ".mp4"
            let muxed := mux_segment_video_audio video audio
            match collectSegmentContributions (fsWrite fs muxed_path muxed) rest with
            | Except.error e => Except.error e
            | Except.ok (fs1, contributions, temp_files) =>
              Except.ok (fs1, (muxed_path, muxed) :: contributions, muxed_path :: temp_files)
        | none =>
          match collectSegmentContributions fs rest with
          | Except.error e => Except.error e
          | Except.ok (fs1, contributions, temp_files) =>
            Except.ok (fs1, (video_path, video) :: contributions, temp_files)

/-- `MediaService.finalize_project_video`: builds the per-segment
contributions in index order, fails if none remain, concatenates them
(stream copy) into `/output/final_<project id>.mp4` and removes the
temporary muxed files (the `finally` cleanup also runs on the error paths,
so an error leaves no net file behind and the model returns the error
alone).  On success, returns the filesystem and the final video's URL. -/
def finalize_project_video (fs : FS) (project_id : String)
    (segments : List Segment) : Except String (FS × String) :=
  match collectSegmentContributions fs (sortByIndex segments) with
  | Except.error e => Except.error e
  | Except.ok (fs1, contributions, temp_files) =>
    if contributions.isEmpty then
      Except.error ("No video segments to concatenate")
    else
      let final_path := storageOutput ++ "final_" ++ project_id ++ ".mp4"
      let final := Media.concatFiles (contributions.map (fun c => c.2))
      Except.ok (fsRemoveAll (fsWrite fs1 final_path final) temp_files,
        "/output/final_" ++ project_id ++ ".mp4")

/-- The path a segment contributes to the final concatenation: the muxed
temp file when it has audio, its raw video file otherwise. -/
def contributionPath (s : Segment) : String :=
  match s.audio_url with
  | some _ => storageTemp ++ "muxed_" ++ s.id ++ ".mp4"
  | none => url_to_file_path (s.video_url.getD "")

/-- `ProjectService.finalize_project`: raises before any mutation when some
segment is not SEGMENT_APPROVED; otherwise flushes FINALIZING, runs the
media finalization, and on its success records the final video URL and
status COMPLETED.  A media failure propagates and every flush of this
request is rolled back, so the error paths return the input state together
with the error. -/
def finalize_project (st : WorkflowState) : WorkflowState × Option String :=
  if ¬ st.segments.all (fun s => s.status = SegmentStatus.SEGMENT_APPROVED) then
    (st, some ("Not all segments are approved"))
  else
    match finalize_project_video st.fs st.project.id st.segments with
    | Except.error e => (st, some e)
    | Except.ok (fs1, final_video_url) =>
      ({ st with
         fs := fs1,
         project := { st.project with
           final_video_url := some final_video_url,
           status := ProjectStatus.COMPLETED } },
       none)

/-- The statuses a segment can only hold once it has been approved. -/
def approvalStatuses : List SegmentStatus :=
  [SegmentStatus.APPROVED, SegmentStatus.GENERATING,
   SegmentStatus.GENERATED, SegmentStatus.SEGMENT_APPROVED]

/-- Per-segment approved-flag invariant: the flag is set exactly when the
status is one of the post-approval statuses. -/
def segInv (s : Segment) : Prop :=
  s.approved = true ↔ s.status ∈ approvalStatuses

instance (s : Segment) : Decidable (segInv s) := by
  unfold segInv; infer_instance

/-- State-level approved-flag invariant. -/
def invariant (st : WorkflowState) : Prop :=
  ∀ s ∈ st.segments, segInv s

instance (st : WorkflowState) : Decidable (invariant st) := by
  unfold invariant; infer_instance

/-- Segment primary keys are unique (the database enforces this). -/
def idsNodup (st : WorkflowState) : Prop :=
  (st.segments.map (fun s => s.id)).Nodup

instance (st : WorkflowState) : Decidable (idsNodup st) := by
  unfold idsNodup; infer_instance

/-- One workflow operation applied to the state, under the update
discipline the spec assumes: `request_regenerate` and
`complete_segment_generation` are invoked only on segments whose approved
flag is already set (they follow a completed generation in the intended
flow), and plan generation only runs while no segment has been approved
yet.  Without those side conditions the source lets `request_regenerate`
move an unapproved segment to APPROVED and plan generation move an
approved segment back to PROMPT_READY, which is what the counterexample
exhibits. -/
inductive RStep : WorkflowState → WorkflowState → Prop where
  | approve {st st' : WorkflowState} (segment_id : String)
      (h : approve_segment st segment_id = Except.ok st') : RStep st st'
  | approveVideo {st st' : WorkflowState} (segment_id : String)
      (h : approve_generated_video st segment_id = Except.ok st') : RStep st st'
  | startGeneration {st st' : WorkflowState} (segment_id task_id : String)
      (tts_result : Option Media)
      (h : start_segment_generation st segment_id task_id tts_result = Except.ok st') :
      RStep st st'
  | checkComplete {st st' : WorkflowState} (segment_id : String) (poll : PollResult)
      (h : check_segment_complete st segment_id poll = Except.ok st') : RStep st st'
  | regenerate {st st' : WorkflowState} (segment_id : String)
      (happroved : ∀ s ∈ st.segments, s.id = segment_id → s.approved = true)
      (h : request_regenerate st segment_id = Except.ok st') : RStep st st'
  | completeGeneration {st : WorkflowState} (segment_id video_url : String)
      (happroved : ∀ s ∈ st.segments, s.id = segment_id → s.approved = true) :
      RStep st (complete_segment_generation st segment_id video_url)
  | plan {st : WorkflowState} (story_prompt : String)
      (plan_segments : List SegmentPrompt)
      (hunapproved : ∀ s ∈ st.segments, s.approved = false) :
      RStep st (generate_video_plan st story_prompt plan_segments)
  | updateSeg {st st' : WorkflowState} (segment_id : String) (data : SegmentUpdate)
      (h : update_segment st segment_id data = Except.ok st') : RStep st st'
  | removeFrame {st st' : WorkflowState} (segment_id : String)
      (h : remove_last_frame st segment_id = Except.ok st') : RStep st st'
  | cloneVoiceStep {st : WorkflowState} (outcome : Bool) (voice_name : Option String) :
      RStep st (clone_voice st outcome voice_name).1
  | updateProjectStep {st : WorkflowState} (data : ProjectUpdate) :
      RStep st (update_project st data)
  | finalizeStep {st : WorkflowState} : RStep st (finalize_project st).1

/-! Concrete example states, used to instantiate the theorems at explicit
inputs. -/

/-- Deterministic segment-id generator for the examples. -/
def exIds : Nat → String := fun i => "seg" ++ toString i

/-- A 12s project with 6s segments: two segments at creation. -/
def exCreate : ProjectCreate :=
  { name := "n", story_prompt := none, target_duration_sec := 12, segment_len_sec := 6 }

/-- The state right after creating the example project. -/
def exCreated : WorkflowState := create_project ("u") ("p") exIds exCreate

/-- A project mid-generation with a cloned voice. -/
def exVoiceProject : Project :=
  { id := "p", user_id := "u", name := "n",
    target_duration_sec := 12, segment_len_sec := 6, segment_count := 2,
    voice_id := some ("v"), status := ProjectStatus.GENERATING }

/-- The same project without a cloned voice. -/
def exNoVoiceProject : Project := { exVoiceProject with voice_id := none }

/-- A segment mid-generation: approved, GENERATING, video task dispatched,
video and audio not yet recorded. -/
def exGenSegment : Segment :=
  { id := "s0", project_id := "p", index := 0,
    narration_text := some ("hello"),
    status := SegmentStatus.GENERATING, approved := true,
    video_task_id := some ("t0") }

/-- The segment after it: approved and awaiting dispatch. -/
def exSeg1 : Segment :=
  { id := "s1", project_id := "p", index := 1,
    status := SegmentStatus.APPROVED, approved := true }

/-- Voice project with one mid-generation segment. -/
def exVoiceSt : WorkflowState :=
  { project := exVoiceProject, segments := [exGenSegment] }

/-- No-voice project with a mid-generation segment and its successor. -/
def exNoVoiceSt : WorkflowState :=
  { project := exNoVoiceProject, segments := [exGenSegment, exSeg1] }

/-- A rendered video file of 6 seconds. -/
def exVideo : Media := Media.videoFile ("vbytes") 6

/-- Project with an uploaded audio sample, before voice cloning. -/
def exAudioSt : WorkflowState :=
  { project := { id := "p", user_id := "u", name := "n",
                 audio_sample_url := some ("sample.mp3"),
                 status := ProjectStatus.CREATED },
    segments := [],
    fs := [("sample.mp3", Media.audioFile ("ab") 3)] }

/-- Segment 0 with its rendered video on disk (for frame propagation). -/
def exC1Seg0 : Segment :=
  { id := "s0", project_id := "p", index := 0,
    status := SegmentStatus.GENERATING, approved := true,
    video_url := some ("/output/v0.mp4") }

/-- State with segment 0's video present in storage. -/
def exC1St : WorkflowState :=
  { project := exNoVoiceProject, segments := [exC1Seg0, exSeg1],
    fs := [(storageOutput ++ "v0.mp4", exVideo)] }

/-- Fully approved segment with video and audio on disk. -/
def exFinSeg0 : Segment :=
  { id := "s0", project_id := "p", index := 0,
    status := SegmentStatus.SEGMENT_APPROVED, approved := true,
    video_url := some ("/output/v0.mp4"), audio_url := some ("/output/a0.mp3") }

/-- Fully approved segment whose generated video was never recorded. -/
def exFinSeg1 : Segment :=
  { id := "s1", project_id := "p", index := 1,
    status := SegmentStatus.SEGMENT_APPROVED, approved := true }

/-- Storage contents for the finalization examples. -/
def exFinFs : FS :=
  [(storageOutput ++ "v0.mp4", exVideo),
   (storageOutput ++ "a0.mp3", Media.audioFile ("ab") 6)]

/-- State with one PROMPT_READY segment, ready for approval. -/
def exPromptSt : WorkflowState :=
  { project := exNoVoiceProject,
    segments := [{ id := "s0", project_id := "p", index := 0,
                   status := SegmentStatus.PROMPT_READY }] }

/-- `exPromptSt` after the approve transition. -/
def exPromptApproved : WorkflowState :=
  updateSegmentRow exPromptSt ("s0") (fun s =>
    { s with approved := true, status := SegmentStatus.APPROVED })

/-- A GENERATING segment whose video and audio references are both already
recorded (the audio arrived synchronously at dispatch, the video through an
earlier poll). -/
def exC2Seg : Segment :=
  { id := "s0", project_id := "p", index := 0,
    status := SegmentStatus.GENERATING, approved := true,
    video_url := some ("/output/v0.mp4"), audio_url := some ("/output/a0.mp3") }

/-- Voice project holding `exC2Seg`. -/
def exBothSt : WorkflowState :=
  { project := exVoiceProject, segments := [exC2Seg] }

/-- `exC2Seg` after the completion check flips it to GENERATED. -/
def exC2SegAfter : Segment := { exC2Seg with status := SegmentStatus.GENERATED }

/-- `exBothSt` after the completion check. -/
def exBothStAfter : WorkflowState :=
  updateSegmentRow exBothSt ("s0") (fun s =>
    { s with status := SegmentStatus.GENERATED })

/-- `exNoVoiceSt` after a successful poll: the video is recorded and frame
propagation has run, but with no audio the segment stays GENERATING. -/
def exC3After : WorkflowState :=
  match check_segment_complete exNoVoiceSt ("s0") (PollResult.success exVideo) with
  | Except.ok st => st
  | Except.error _ => exNoVoiceSt

/-- Segment 0 of `exC3After`. -/
def exC3SegAfter : Segment := (getSegment exC3After ("s0")).getD exGenSegment

/-- The freshly created example project after a `request_regenerate` call
on its (still PENDING, unapproved) first segment. -/
def exRegen : WorkflowState :=
  match request_regenerate exCreated ("seg0") with
  | Except.ok st => st
  | Except.error _ => exCreated

/-- A two-entry plan for the example project. -/
def exPlan : List SegmentPrompt :=
  [{ segment_index := 0, video_prompt := "vp0", narration_text := "nt0",
     end_frame_prompt := "ef0" },
   { segment_index := 1, video_prompt := "vp1", narration_text := "nt1",
     end_frame_prompt := "ef1" }]

/-! Helper lemmas about segment-row updates. -/

/-- `find?` over a map whose function does not change the predicate. -/
theorem find?_map_congr (f : Segment → Segment) (p : Segment → Bool)
    (l : List Segment) (hf : ∀ s, p (f s) = p s) :
    (l.map f).find? p = (l.find? p).map f := by
  have hc : p ∘ f = p := funext hf
  rw [List.find?_map, hc]

/-- Looking a segment up after an id-preserving row update. -/
theorem getSegment_update (st : WorkflowState) (id1 id2 : String)
    (f : Segment → Segment) (hf : ∀ s, (f s).id = s.id) :
    getSegment (updateSegmentRow st id1 f) id2 =
      (getSegment st id2).map (fun s => if s.id = id1 then f s else s) := by
  unfold getSegment updateSegmentRow
  exact find?_map_congr _ _ _ (fun s => by
    by_cases h : s.id = id1 <;> simp [h, hf])

/-- A projection untouched by the update commutes with the lookup. -/
theorem getSegment_update_proj {α : Type} (proj : Segment → α)
    (st : WorkflowState) (id1 id2 : String) (f : Segment → Segment)
    (hf : ∀ s, (f s).id = s.id) (hp : ∀ s, proj (f s) = proj s) :
    (getSegment (updateSegmentRow st id1 f) id2).map proj =
      (getSegment st id2).map proj := by
  rw [getSegment_update st id1 id2 f hf, Option.map_map]
  congr 1
  funext s
  by_cases h : s.id = id1 <;> simp [h, hp]

/-- Row updates keep the id column. -/
theorem ids_update (st : WorkflowState) (id1 : String) (f : Segment → Segment)
    (hf : ∀ s, (f s).id = s.id) :
    (updateSegmentRow st id1 f).segments.map (fun s => s.id) =
      st.segments.map (fun s => s.id) := by
  unfold updateSegmentRow
  rw [List.map_map]
  congr 1
  funext s
  by_cases h : s.id = id1 <;> simp [h, hf]

/-- C5 counterexample: for an audio 0.05s longer than the 6s video, the
tolerance branch copies the audio through unmodified, so the muxed file's
audio track keeps duration 6.05s — not exactly the video's 6s as the claim
states. -/
theorem c5_counterexample :
    (audioTrack (mux_segment_video_audio (Media.videoFile ("v") 6)
        (Media.audioFile ("a") (121/20)))).map mediaDuration ≠
      some (mediaDuration (Media.videoFile ("v") 6)) := by
  have hcond : |mediaDuration (Media.audioFile ("a") (121/20)) - (6 : ℚ)| < 1/10 := by
    simp only [mediaDuration]
    rw [abs_sub_lt_iff]
    constructor <;> norm_num
  have hadj : adjust_audio_duration (Media.audioFile ("a") (121/20)) 6 =
      Media.audioFile ("a") (121/20) := by
    simp only [adjust_audio_duration]
    rw [if_pos hcond]
  have hm : mux_segment_video_audio (Media.videoFile ("v") 6)
      (Media.audioFile ("a") (121/20)) =
      Media.muxed (Media.videoFile ("v") 6) (Media.audioFile ("a") (121/20)) := by
    simp only [mux_segment_video_audio, mediaDuration]
    rw [hadj]
  rw [hm]
  simp only [audioTrack, Option.map_some', mediaDuration, ne_eq, Option.some.injEq]
  norm_num

/-- C5 (amended): `mux_segment_video_audio` muxes the video with
`adjust_audio_duration audio (video's duration)`; when the durations differ
by less than 0.1s the audio passes through unmodified (keeping its own
duration), and when they differ by at least 0.1s the audio is trimmed
(longer) or silence-padded (shorter) so that the muxed audio track's
duration equals the video's duration exactly. -/
theorem c5_amended (video audio : Media) :
    audioTrack (mux_segment_video_audio video audio) =
      some (adjust_audio_duration audio (mediaDuration video)) ∧
    (|mediaDuration audio - mediaDuration video| < 1/10 →
      adjust_audio_duration audio (mediaDuration video) = audio) ∧
    (1/10 ≤ |mediaDuration audio - mediaDuration video| →
      mediaDuration (adjust_audio_duration audio (mediaDuration video)) =
        mediaDuration video ∧
      (mediaDuration video < mediaDuration audio →
        adjust_audio_duration audio (mediaDuration video) =
          Media.trimmedAudio audio (mediaDuration video)) ∧
      (mediaDuration audio < mediaDuration video →
        adjust_audio_duration audio (mediaDuration video) =
          Media.paddedAudio audio (mediaDuration video))) := by
  refine ⟨rfl, ?_, ?_⟩
  · intro h
    unfold adjust_audio_duration
    rw [if_pos h]
  · intro h
    have h' : ¬ |mediaDuration audio - mediaDuration video| < 1/10 := not_lt.mpr h
    unfold adjust_audio_duration
    rw [if_neg h']
    refine ⟨?_, ?_, ?_⟩
    · by_cases hgt : mediaDuration audio > mediaDuration video
      · rw [if_pos hgt]
        rfl
      · rw [if_neg hgt]
        rfl
    · intro hlt
      rw [if_pos hlt]
    · intro hlt
      rw [if_neg (lt_asymm hlt)]

/-- C6 counterexample: create a 12s/6s project (2 segments), then update the
target duration to 18s.  `update_project` recomputes `segment_count` to 3
but materializes no new segments, so the row count no longer equals
`segment_count` after this core operation. -/
theorem c6_counterexample :
    (update_project exCreated { target_duration_sec := some 18 }).segments.length ≠
      (update_project exCreated { target_duration_sec := some 18 }).project.segment_count := by
  decide

/-- C6 (amended): at creation the invariant holds — `segment_count` is the
floor of target duration over segment duration, exactly that many segment
rows exist, and their indices are exactly `0 .. segment_count-1` in order —
but `update_project` only recomputes the `segment_count` field and never
adds or removes segment rows, so an update that changes the computed count
breaks the row-count equality. -/
theorem c6_amended (user_id project_id : String) (segment_ids : Nat → String)
    (data : ProjectCreate) (st : WorkflowState) (upd : ProjectUpdate) :
    (create_project user_id project_id segment_ids data).project.segment_count =
      data.target_duration_sec / data.segment_len_sec ∧
    (create_project user_id project_id segment_ids data).segments.length =
      (create_project user_id project_id segment_ids data).project.segment_count ∧
    (create_project user_id project_id segment_ids data).segments.map (fun s => s.index) =
      List.range (data.target_duration_sec / data.segment_len_sec) ∧
    (update_project st upd).segments = st.segments := by
  refine ⟨rfl, ?_, ?_, rfl⟩
  · simp [create_project]
  · simp [create_project, List.map_map]
    exact List.map_id _

/-- C4: when any segment of the project is not SEGMENT_APPROVED,
`finalize_project` fails with the precondition error before mutating
anything: the returned state is the input state unchanged (same project
status, same final-video reference, same segments, same filesystem — so no
output file was created). -/
theorem c4_confirmed (st : WorkflowState) (seg : Segment)
    (hmem : seg ∈ st.segments)
    (hstatus : seg.status ≠ SegmentStatus.SEGMENT_APPROVED) :
    finalize_project st = (st, some ("Not all segments are approved")) := by
  have hfalse : st.segments.all
      (fun s => s.status = SegmentStatus.SEGMENT_APPROVED) = false := by
    rw [List.all_eq_false]
    exact ⟨seg, hmem, by simpa using hstatus⟩
  simp [finalize_project, hfalse]

/-- C4 witness: the freshly created example project (both segments PENDING)
refuses finalization and is returned unchanged. -/
theorem c4_witness :
    finalize_project exCreated = (exCreated, some ("Not all segments are approved")) :=
  c4_confirmed exCreated
    { id := exIds 0, project_id := "p", index := 0,
      status := SegmentStatus.PENDING, approved := false }
    (by decide) (by decide)

/-- C9 counterexample: a project in status CREATED with a readable audio
sample.  Whether cloning fails or succeeds, `clone_voice` sets the status to
MEDIA_UPLOADED — not the CREATED status held before the operation began. -/
theorem c9_counterexample :
    (clone_voice exAudioSt false none).1.project.status ≠ exAudioSt.project.status ∧
    (clone_voice exAudioSt true none).1.project.status ≠ exAudioSt.project.status := by
  constructor <;> decide

/-- C9 (amended): once the preconditions pass (audio sample reference set
and its file readable), `clone_voice` leaves the project in MEDIA_UPLOADED
on success and on failure alike — never stranded in VOICE_CLONING — and
this equals the status held before the operation exactly when that status
was MEDIA_UPLOADED. -/
theorem c9_amended (st : WorkflowState) (outcome : Bool)
    (voice_name : Option String) (url : String)
    (h1 : st.project.audio_sample_url = some url)
    (h2 : (fsRead st.fs url).isSome) :
    (clone_voice st outcome voice_name).1.project.status =
      ProjectStatus.MEDIA_UPLOADED ∧
    ((clone_voice st outcome voice_name).1.project.status = st.project.status ↔
      st.project.status = ProjectStatus.MEDIA_UPLOADED) := by
  obtain ⟨m, hm⟩ := Option.isSome_iff_exists.mp h2
  have hres : (clone_voice st outcome voice_name).1.project.status =
      ProjectStatus.MEDIA_UPLOADED := by
    cases outcome <;> simp [clone_voice, h1, hm]
  refine ⟨hres, ?_⟩
  rw [hres]
  exact eq_comm

/-- C9 witness: the audio-sample example project starts in CREATED with a
readable sample; a failed clone leaves it in MEDIA_UPLOADED. -/
theorem c9_witness :
    exAudioSt.project.audio_sample_url = some ("sample.mp3") ∧
    (clone_voice exAudioSt false none).1.project.status =
      ProjectStatus.MEDIA_UPLOADED :=
  ⟨by decide, (c9_amended exAudioSt false none ("sample.mp3")
    (by decide) (by decide)).1⟩

/-- Frame propagation only writes frame URLs: its effect on the segment
list is a pointwise map that preserves the id, status, approved flag,
video/audio references and the task handle of every row, and the project
row is untouched. -/
theorem extract_propagate_core (st : WorkflowState) (segment_id : String) :
    ∃ h : Segment → Segment,
      (∀ s, (h s).id = s.id ∧ (h s).status = s.status ∧
            (h s).approved = s.approved ∧ (h s).video_url = s.video_url ∧
            (h s).audio_url = s.audio_url ∧ (h s).video_task_id = s.video_task_id) ∧
      (extract_and_propagate_last_frame st segment_id).segments =
        st.segments.map h ∧
      (extract_and_propagate_last_frame st segment_id).project = st.project := by
  unfold extract_and_propagate_last_frame
  cases heq : getSegment st segment_id with
  | none => exact ⟨fun s => s, fun s => by simp, by simp, rfl⟩
  | some segment =>
    dsimp only
    cases hurl : segment.video_url with
    | none => exact ⟨fun s => s, fun s => by simp, by simp, rfl⟩
    | some video_url =>
      dsimp only
      cases hvid : fsRead st.fs (url_to_file_path video_url) with
      | none => exact ⟨fun s => s, fun s => by simp, by simp, rfl⟩
      | some video =>
        dsimp only
        split
        · refine ⟨fun s =>
            if s.id = segment_id then
              { s with last_frame_url := some ("/temp/" ++ ("last_frame_" ++ segment.id ++ ".jpg")) }
            else s, fun s => ?_, rfl, rfl⟩
          by_cases hs : s.id = segment_id <;> simp [hs]
        next next_segment hnext =>
          refine ⟨(fun s =>
            if s.id = next_segment.id then
              { s with first_frame_url := some ("/temp/" ++ ("first_frame_" ++ next_segment.id ++ ".jpg")) }
            else s) ∘ (fun s =>
            if s.id = segment_id then
              { s with last_frame_url := some ("/temp/" ++ ("last_frame_" ++ segment.id ++ ".jpg")) }
            else s), fun s => ?_, ?_, rfl⟩
          · by_cases hs : s.id = segment_id <;>
              by_cases hs2 : s.id = next_segment.id <;>
              simp [Function.comp, hs, hs2] <;>
              (try (split <;> simp_all))
          · simp only [updateSegmentRow, List.map_map]

/-- A found segment satisfies the lookup predicate: its id is the key. -/
theorem getSegment_id (st : WorkflowState) (q : String) (seg : Segment)
    (h : getSegment st q = some seg) : seg.id = q := by
  unfold getSegment at h
  exact of_decide_eq_true
    (@List.find?_some Segment (fun s => decide (s.id = q)) seg st.segments h)

/-- Frame propagation preserves each segment's status, approved flag and
video/audio references, as seen through the lookup. -/
theorem extract_propagate_view (st : WorkflowState) (segment_id q : String) :
    (getSegment (extract_and_propagate_last_frame st segment_id) q).map
        (fun s => (s.status, s.approved, s.video_url, s.audio_url)) =
      (getSegment st q).map
        (fun s => (s.status, s.approved, s.video_url, s.audio_url)) := by
  obtain ⟨h, hprop, hsegs, -⟩ := extract_propagate_core st segment_id
  unfold getSegment
  rw [hsegs, find?_map_congr _ _ _ (fun s => by simp [(hprop s).1]),
    Option.map_map]
  congr 1
  funext s
  obtain ⟨-, h2, h3, h4, h5, -⟩ := hprop s
  simp [Function.comp, h2, h3, h4, h5]

/-- After the download branch, the target segment keeps its status,
approved flag and audio reference, and its video reference points at the
downloaded file's URL. -/
theorem record_downloaded_video_props (st : WorkflowState) (segment_id : String)
    (seg : Segment) (video : Media) (h0 : getSegment st segment_id = some seg) :
    (getSegment (record_downloaded_video st segment_id seg video) segment_id).map
        (fun s => (s.status, s.approved, s.video_url, s.audio_url)) =
      some (seg.status, seg.approved,
        some ("/output/" ++ ("video_" ++ seg.id ++ ".mp4")), seg.audio_url) := by
  have hid : seg.id = segment_id := getSegment_id st segment_id seg h0
  unfold record_downloaded_video
  rw [extract_propagate_view]
  have hup := getSegment_update
    { st with fs := fsWrite st.fs (storageOutput ++ ("video_" ++ seg.id ++ ".mp4")) video }
    segment_id segment_id
    (fun s => { s with video_url := some ("/output/" ++ ("video_" ++ seg.id ++ ".mp4")) })
    (fun s => rfl)
  have hbase : getSegment
      { st with fs := fsWrite st.fs (storageOutput ++ ("video_" ++ seg.id ++ ".mp4")) video }
      segment_id = some seg := h0
  rw [hup, hbase]
  simp [hid]

/-- C2 counterexample: on a project with an assigned voice,
`complete_segment_generation` marks the segment GENERATED on the video
reference alone — the audio reference is still null at that moment, so not
every operation requires both references. -/
theorem c2_counterexample :
    (getSegment (complete_segment_generation exVoiceSt ("s0") ("/output/v.mp4"))
        ("s0")).map (fun s => (s.status, s.audio_url)) =
      some (SegmentStatus.GENERATED, none) ∧
    exVoiceSt.project.voice_id = some ("v") := by
  constructor <;> decide

/-- C2 (amended): the completion-check operation never flips a GENERATING
segment to GENERATED with only one of the two references present — whenever
the checked segment was GENERATING before the call and is GENERATED after
it, both its video and audio references are non-null.  (The unchecked
`complete_segment_generation` helper, by contrast, sets GENERATED without
looking at the audio reference, as the counterexample shows.) -/
theorem c2_amended (st st' : WorkflowState) (segment_id : String)
    (poll : PollResult) (seg seg' : Segment)
    (h0 : getSegment st segment_id = some seg)
    (hgen : seg.status = SegmentStatus.GENERATING)
    (hok : check_segment_complete st segment_id poll = Except.ok st')
    (h1 : getSegment st' segment_id = some seg')
    (hflip : seg'.status = SegmentStatus.GENERATED) :
    seg'.video_url.isSome = true ∧ seg'.audio_url.isSome = true := by
  have hid : seg.id = segment_id := getSegment_id st segment_id seg h0
  unfold check_segment_complete at hok
  rw [h0] at hok
  dsimp only at hok
  by_cases hcond : seg.video_task_id.isSome = true ∧ seg.video_url = none ∧
      seg.status = SegmentStatus.GENERATING
  · rw [if_pos hcond] at hok
    cases poll with
    | success video =>
      dsimp only at hok
      have hL2 := record_downloaded_video_props st segment_id seg video h0
      cases hseg1 : getSegment (record_downloaded_video st segment_id seg video)
          segment_id with
      | none =>
        rw [hseg1] at hL2
        simp at hL2
      | some segment1 =>
        rw [hseg1] at hok hL2
        dsimp only at hok
        simp only [Option.map_some', Option.some.injEq, Prod.mk.injEq] at hL2
        obtain ⟨hs1stat, hs1app, hs1vid, hs1aud⟩ := hL2
        have hs1id : segment1.id = segment_id :=
          getSegment_id _ _ _ hseg1
        by_cases hc2 : segment1.video_url.isSome = true ∧
            segment1.audio_url.isSome = true ∧
            segment1.status = SegmentStatus.GENERATING
        · rw [if_pos hc2] at hok
          injection hok with hok'
          subst hok'
          rw [getSegment_update (record_downloaded_video st segment_id seg video)
            segment_id segment_id
            (fun s => { s with status := SegmentStatus.GENERATED })
            (fun s => rfl), hseg1] at h1
          simp only [Option.map_some', hs1id, if_pos] at h1
          injection h1 with h1'
          subst h1'
          exact ⟨hc2.1, hc2.2.1⟩
        · rw [if_neg hc2] at hok
          injection hok with hok'
          subst hok'
          rw [hseg1] at h1
          injection h1 with h1'
          subst h1'
          rw [hs1stat, hgen] at hflip
          exact absurd hflip (by decide)
    | failed =>
      dsimp only at hok
      rw [h0] at hok
      dsimp only at hok
      have hnc : ¬(seg.video_url.isSome = true ∧ seg.audio_url.isSome = true ∧
          seg.status = SegmentStatus.GENERATING) := by
        intro hc
        rw [hcond.2.1] at hc
        simp at hc
      rw [if_neg hnc] at hok
      injection hok with hok'
      subst hok'
      rw [h0] at h1
      injection h1 with h1'
      subst h1'
      rw [hgen] at hflip
      exact absurd hflip (by decide)
    | processing =>
      dsimp only at hok
      rw [h0] at hok
      dsimp only at hok
      have hnc : ¬(seg.video_url.isSome = true ∧ seg.audio_url.isSome = true ∧
          seg.status = SegmentStatus.GENERATING) := by
        intro hc
        rw [hcond.2.1] at hc
        simp at hc
      rw [if_neg hnc] at hok
      injection hok with hok'
      subst hok'
      rw [h0] at h1
      injection h1 with h1'
      subst h1'
      rw [hgen] at hflip
      exact absurd hflip (by decide)
  · rw [if_neg hcond] at hok
    rw [h0] at hok
    dsimp only at hok
    by_cases hc2 : seg.video_url.isSome = true ∧ seg.audio_url.isSome = true ∧
        seg.status = SegmentStatus.GENERATING
    · rw [if_pos hc2] at hok
      injection hok with hok'
      subst hok'
      rw [getSegment_update st segment_id segment_id
        (fun s => { s with status := SegmentStatus.GENERATED })
        (fun s => rfl), h0] at h1
      simp only [Option.map_some', hid, if_pos] at h1
      injection h1 with h1'
      subst h1'
      exact ⟨hc2.1, hc2.2.1⟩
    · rw [if_neg hc2] at hok
      injection hok with hok'
      subst hok'
      rw [h0] at h1
      injection h1 with h1'
      subst h1'
      rw [hgen] at hflip
      exact absurd hflip (by decide)

/-- C2 witness: a GENERATING segment with both references present flips to
GENERATED through the completion check, and at that moment both its video
and its audio reference are non-null. -/
theorem c2_witness :
    exC2SegAfter.video_url.isSome = true ∧ exC2SegAfter.audio_url.isSome = true :=
  c2_amended exBothSt exBothStAfter ("s0") PollResult.failed exC2Seg exC2SegAfter
    (by decide) (by decide) (by rfl) (by decide) (by decide)

/-- C3 counterexample: a no-voice project polls a successful video task.
The video reference is recorded, but the segment stays GENERATING — the
completion check requires the (never coming) audio reference before it
flips to GENERATED, so video alone does not suffice. -/
theorem c3_counterexample :
    (check_segment_complete exNoVoiceSt ("s0") (PollResult.success exVideo)).map
        (fun st => (getSegment st ("s0")).map (fun s => (s.status, s.video_url))) =
      Except.ok (some (SegmentStatus.GENERATING, some ("/output/video_s0.mp4"))) ∧
    exNoVoiceSt.project.voice_id = none := by
  exact ⟨by rfl, by decide⟩

/-- C3 (amended): for a no-voice project, when the completion check
observes a successful video task for a GENERATING segment (task handle
present, no video reference, no audio reference), it records the downloaded
video's URL on the segment — but the segment remains GENERATING, because
the GENERATED transition demands both references and the audio reference is
still null. -/
theorem c3_amended (st st' : WorkflowState) (segment_id : String)
    (video : Media) (seg seg' : Segment)
    (hvoice : st.project.voice_id = none)
    (h0 : getSegment st segment_id = some seg)
    (htask : seg.video_task_id.isSome = true)
    (hnov : seg.video_url = none)
    (hnoa : seg.audio_url = none)
    (hgen : seg.status = SegmentStatus.GENERATING)
    (hok : check_segment_complete st segment_id (PollResult.success video) =
      Except.ok st')
    (h1 : getSegment st' segment_id = some seg') :
    seg'.video_url = some ("/output/" ++ ("video_" ++ seg.id ++ ".mp4")) ∧
    seg'.status = SegmentStatus.GENERATING := by
  unfold check_segment_complete at hok
  rw [h0] at hok
  dsimp only at hok
  have hcond : seg.video_task_id.isSome = true ∧ seg.video_url = none ∧
      seg.status = SegmentStatus.GENERATING := ⟨htask, hnov, hgen⟩
  rw [if_pos hcond] at hok
  have hL2 := record_downloaded_video_props st segment_id seg video h0
  cases hseg1 : getSegment (record_downloaded_video st segment_id seg video)
      segment_id with
  | none =>
    rw [hseg1] at hL2
    simp at hL2
  | some segment1 =>
    rw [hseg1] at hok hL2
    dsimp only at hok
    simp only [Option.map_some', Option.some.injEq, Prod.mk.injEq] at hL2
    obtain ⟨hs1stat, hs1app, hs1vid, hs1aud⟩ := hL2
    have hnc : ¬(segment1.video_url.isSome = true ∧
        segment1.audio_url.isSome = true ∧
        segment1.status = SegmentStatus.GENERATING) := by
      intro hc
      rw [hs1aud, hnoa] at hc
      simp at hc
    rw [if_neg hnc] at hok
    injection hok with hok'
    subst hok'
    rw [hseg1] at h1
    injection h1 with h1'
    subst h1'
    constructor
    · exact hs1vid
    · rw [hs1stat, hgen]

/-- C3 witness: the no-voice example state run through a successful poll:
segment 0 ends with the downloaded video's URL and status GENERATING. -/
theorem c3_witness :
    exC3SegAfter.video_url =
      some ("/output/" ++ ("video_" ++ exGenSegment.id ++ ".mp4")) ∧
    exC3SegAfter.status = SegmentStatus.GENERATING :=
  c3_amended exNoVoiceSt exC3After ("s0") exVideo exGenSegment exC3SegAfter
    (by decide) (by decide) (by decide) (by decide) (by decide) (by decide)
    (by rfl) (by rfl)

/-- Membership in an insertion step. -/
theorem mem_insertByIndex (a s : Segment) (l : List Segment) :
    a ∈ insertByIndex s l ↔ a = s ∨ a ∈ l := by
  induction l with
  | nil => simp [insertByIndex]
  | cons t rest ih =>
    unfold insertByIndex
    by_cases h : s.index ≤ t.index
    · rw [if_pos h]
      simp [List.mem_cons]
    · rw [if_neg h]
      simp only [List.mem_cons, ih]
      tauto

/-- Sorting by index keeps exactly the same elements. -/
theorem mem_sortByIndex (a : Segment) (l : List Segment) :
    a ∈ sortByIndex l ↔ a ∈ l := by
  induction l with
  | nil => simp [sortByIndex]
  | cons s rest ih =>
    unfold sortByIndex
    rw [mem_insertByIndex]
    simp [ih]

/-- Positional zip, inside the shorter range: segment `i` is written with
plan entry `i`. -/
theorem applyPlan_getElem_some (ss : List Segment) (ps : List SegmentPrompt)
    (i : Nat) (p : SegmentPrompt) (hp : ps[i]? = some p) :
    (applyPlan ss ps)[i]? = (ss[i]?).map (fun s => writePlanPrompt s p) := by
  induction ss generalizing ps i with
  | nil => simp [applyPlan]
  | cons s rest ih =>
    cases ps with
    | nil => simp at hp
    | cons p0 ps' =>
      cases i with
      | zero =>
        simp only [List.getElem?_cons_zero, Option.some.injEq] at hp
        subst hp
        simp [applyPlan]
      | succ n =>
        simp only [List.getElem?_cons_succ] at hp
        simp only [applyPlan, List.getElem?_cons_succ]
        exact ih ps' n hp

/-- Positional zip, beyond the plan's length: segment `i` is untouched. -/
theorem applyPlan_getElem_ge (ss : List Segment) (ps : List SegmentPrompt)
    (i : Nat) (hi : ps.length ≤ i) :
    (applyPlan ss ps)[i]? = ss[i]? := by
  induction ss generalizing ps i with
  | nil => simp [applyPlan]
  | cons s rest ih =>
    cases ps with
    | nil => rfl
    | cons p0 ps' =>
      cases i with
      | zero => simp at hi
      | succ n =>
        simp only [applyPlan, List.getElem?_cons_succ]
        exact ih ps' n (Nat.le_of_succ_le_succ hi)

/-- C8: the success path of plan generation moves the project to
PLAN_READY, writes the plan's prompts onto the project's segments in index
order by positional zip (segment `i` receives plan entry `i`'s three prompt
fields and moves from PENDING to PROMPT_READY), and when the plan and the
segment list differ in length the write silently truncates to the shorter
list — segments beyond the plan keep all their fields, and plan entries
beyond the segments are dropped. -/
theorem c8_confirmed (st : WorkflowState) (story_prompt : String)
    (plan_segments : List SegmentPrompt)
    (hpend : ∀ s ∈ st.segments, s.status = SegmentStatus.PENDING) :
    (generate_video_plan st story_prompt plan_segments).project.status =
      ProjectStatus.PLAN_READY ∧
    (generate_video_plan st story_prompt plan_segments).segments =
      applyPlan (sortByIndex st.segments) plan_segments ∧
    (∀ (i : Nat) (p : SegmentPrompt), plan_segments[i]? = some p →
      ((generate_video_plan st story_prompt plan_segments).segments[i]? =
        ((sortByIndex st.segments)[i]?).map (fun s => writePlanPrompt s p)) ∧
      (∀ (s : Segment), (sortByIndex st.segments)[i]? = some s →
        s.status = SegmentStatus.PENDING ∧
        (writePlanPrompt s p).status = SegmentStatus.PROMPT_READY ∧
        (writePlanPrompt s p).video_prompt = some p.video_prompt ∧
        (writePlanPrompt s p).narration_text = some p.narration_text ∧
        (writePlanPrompt s p).end_frame_prompt = some p.end_frame_prompt)) ∧
    (∀ (i : Nat), plan_segments.length ≤ i →
      (generate_video_plan st story_prompt plan_segments).segments[i]? =
        (sortByIndex st.segments)[i]?) := by
  refine ⟨rfl, rfl, ?_, ?_⟩
  · intro i p hp
    constructor
    · exact applyPlan_getElem_some (sortByIndex st.segments) plan_segments i p hp
    · intro s hs
      have hmem : s ∈ st.segments :=
        (mem_sortByIndex s st.segments).mp (List.getElem?_mem hs)
      exact ⟨hpend s hmem, rfl, rfl, rfl, rfl⟩
  · intro i hi
    exact applyPlan_getElem_ge (sortByIndex st.segments) plan_segments i hi

/-- C8 witness: the freshly created example project (all segments PENDING)
run through a two-entry plan ends in PLAN_READY. -/
theorem c8_witness :
    (generate_video_plan exCreated ("story") exPlan).project.status =
      ProjectStatus.PLAN_READY :=
  (c8_confirmed exCreated ("story") exPlan (by decide)).1

/-- Reading back the file just written. -/
theorem fsRead_fsWrite_same (fs : FS) (p : String) (m : Media) :
    fsRead (fsWrite fs p m) p = some m := by
  unfold fsRead fsWrite
  rw [List.find?_cons_of_pos]
  · rfl
  · simp

/-- A write at a different path does not affect a read. -/
theorem fsRead_fsWrite_other (fs : FS) (p q : String) (m : Media) (h : q ≠ p) :
    fsRead (fsWrite fs p m) q = fsRead fs q := by
  unfold fsRead fsWrite
  rw [List.find?_cons_of_neg]
  simp
  exact fun hh => h hh.symm

/-- Changing the filesystem does not change segment lookups. -/
theorem getSegment_set_fs (st : WorkflowState) (fs' : FS) (q : String) :
    getSegment { st with fs := fs' } q = getSegment st q := rfl

/-- Specialization of `getSegment_update` to a last-frame write. -/
theorem getSegment_update_last (st : WorkflowState) (id1 q : String)
    (u : Option String) :
    getSegment (updateSegmentRow st id1 (fun s => { s with last_frame_url := u })) q =
      (getSegment st q).map
        (fun s => if s.id = id1 then { s with last_frame_url := u } else s) :=
  getSegment_update st id1 q _ (fun s => rfl)

/-- Specialization of `getSegment_update` to a first-frame write. -/
theorem getSegment_update_first (st : WorkflowState) (id1 q : String)
    (u : Option String) :
    getSegment (updateSegmentRow st id1 (fun s => { s with first_frame_url := u })) q =
      (getSegment st q).map
        (fun s => if s.id = id1 then { s with first_frame_url := u } else s) :=
  getSegment_update st id1 q _ (fun s => rfl)

/-- C1: frame propagation for a segment whose video reference is set.  If
the video file cannot be located in storage the whole operation is a no-op
(logged, no error, state unchanged).  If it is present, the last frame is
extracted at time offset `max 0 (duration - 0.1)` and stored as this
segment's last-frame reference; when no segment at index+1 exists in the
project (the final segment) no other segment is mutated and no error is
raised; when the segment at index+1 exists, the very same image value is
copied into its first-frame file and recorded as its first-frame
reference. -/
theorem c1_confirmed (st : WorkflowState) (segment_id : String) (seg : Segment)
    (vurl : String)
    (h0 : getSegment st segment_id = some seg)
    (hv : seg.video_url = some vurl) :
    (fsRead st.fs (url_to_file_path vurl) = none →
      extract_and_propagate_last_frame st segment_id = st) ∧
    (∀ video : Media, fsRead st.fs (url_to_file_path vurl) = some video →
      ((getSegment (extract_and_propagate_last_frame st segment_id) segment_id).map
          (fun s => s.last_frame_url) =
        some (some ("/temp/" ++ ("last_frame_" ++ seg.id ++ ".jpg")))) ∧
      (st.segments.find? (fun s =>
          s.project_id = seg.project_id ∧ s.index = seg.index + 1) = none →
        (extract_and_propagate_last_frame st segment_id).segments =
          st.segments.map (fun s =>
            if s.id = segment_id then
              { s with last_frame_url := some ("/temp/" ++ ("last_frame_" ++ seg.id ++ ".jpg")) }
            else s) ∧
        fsRead (extract_and_propagate_last_frame st segment_id).fs
            (storageTemp ++ ("last_frame_" ++ seg.id ++ ".jpg")) =
          some (Media.frameImage (videoData video)
            (max 0 (mediaDuration video - 1/10)))) ∧
      (∀ next : Segment,
        st.segments.find? (fun s =>
          s.project_id = seg.project_id ∧ s.index = seg.index + 1) = some next →
        next.id ≠ seg.id →
        (storageTemp ++ ("last_frame_" ++ seg.id ++ ".jpg")) ≠
          (storageTemp ++ ("first_frame_" ++ next.id ++ ".jpg")) →
        fsRead (extract_and_propagate_last_frame st segment_id).fs
            (storageTemp ++ ("last_frame_" ++ seg.id ++ ".jpg")) =
          some (Media.frameImage (videoData video)
            (max 0 (mediaDuration video - 1/10))) ∧
        fsRead (extract_and_propagate_last_frame st segment_id).fs
            (storageTemp ++ ("first_frame_" ++ next.id ++ ".jpg")) =
          some (Media.frameImage (videoData video)
            (max 0 (mediaDuration video - 1/10))) ∧
        (getSegment (extract_and_propagate_last_frame st segment_id) next.id).map
            (fun s => s.first_frame_url) =
          some (some ("/temp/" ++ ("first_frame_" ++ next.id ++ ".jpg"))))) := by
  have hid : seg.id = segment_id := getSegment_id st segment_id seg h0
  constructor
  · intro hnone
    unfold extract_and_propagate_last_frame
    rw [h0]
    dsimp only
    rw [hv]
    dsimp only
    rw [hnone]
  · intro video hsome
    cases hnext : st.segments.find? (fun s =>
        decide (s.project_id = seg.project_id ∧ s.index = seg.index + 1)) with
    | none =>
      have hres : extract_and_propagate_last_frame st segment_id =
          updateSegmentRow
            { st with fs := (fsWrite st.fs
                (storageTemp ++ ("last_frame_" ++ seg.id ++ ".jpg"))
                (extract_last_frame video)) }
            segment_id
            (fun s => { s with last_frame_url := some ("/temp/" ++ ("last_frame_" ++ seg.id ++ ".jpg")) }) := by
        unfold extract_and_propagate_last_frame
        rw [h0]
        dsimp only
        rw [hv]
        dsimp only
        rw [hsome]
        dsimp only
        rw [hnext]
      refine ⟨?_, fun _ => ⟨?_, ?_⟩, ?_⟩
      · rw [hres, getSegment_update_last, getSegment_set_fs, h0]
        simp [hid]
      · rw [hres]
        rfl
      · rw [hres]
        exact fsRead_fsWrite_same _ _ _
      · intro next hfind hne hpne
        simp at hfind
    | some next_segment =>
      have hres : extract_and_propagate_last_frame st segment_id =
          updateSegmentRow
            { (updateSegmentRow
                { st with fs := (fsWrite st.fs
                    (storageTemp ++ ("last_frame_" ++ seg.id ++ ".jpg"))
                    (extract_last_frame video)) }
                segment_id
                (fun s => { s with last_frame_url := some ("/temp/" ++ ("last_frame_" ++ seg.id ++ ".jpg")) })) with
              fs := (fsWrite
                (fsWrite st.fs
                  (storageTemp ++ ("last_frame_" ++ seg.id ++ ".jpg"))
                  (extract_last_frame video))
                (storageTemp ++ ("first_frame_" ++ next_segment.id ++ ".jpg"))
                (extract_last_frame video)) }
            next_segment.id
            (fun s => { s with first_frame_url := some ("/temp/" ++ ("first_frame_" ++ next_segment.id ++ ".jpg")) }) := by
        unfold extract_and_propagate_last_frame
        rw [h0]
        dsimp only
        rw [hv]
        dsimp only
        rw [hsome]
        dsimp only
        rw [hnext]
        rfl
      refine ⟨?_, ?_, ?_⟩
      · rw [hres, getSegment_update_first, getSegment_set_fs,
          getSegment_update_last, getSegment_set_fs, h0]
        simp only [Option.map_some']
        rw [if_pos hid]
        dsimp only
        split <;> rfl
      · intro hfind
        simp at hfind
      · intro next hfind hne hpne
        injection hfind with hfind'
        subst hfind'
        refine ⟨?_, ?_, ?_⟩
        · rw [hres]
          show fsRead (fsWrite (fsWrite st.fs _ _) _ _) _ = _
          rw [fsRead_fsWrite_other _ _ _ _ hpne]
          exact fsRead_fsWrite_same _ _ _
        · rw [hres]
          exact fsRead_fsWrite_same _ _ _
        · rw [hres, getSegment_update_first, getSegment_set_fs,
            getSegment_update_last, getSegment_set_fs]
          have hex : (st.segments.find?
              (fun s => decide (s.id = next_segment.id))).isSome :=
            List.find?_isSome.mpr
              ⟨next_segment, List.mem_of_find?_eq_some hnext, decide_eq_true rfl⟩
          obtain ⟨row, hrow⟩ := Option.isSome_iff_exists.mp hex
          rw [show getSegment st next_segment.id = some row from hrow]
          have hrowid : row.id = next_segment.id :=
            getSegment_id st next_segment.id row hrow
          have hne2 : ¬(next_segment.id = segment_id) := by
            rw [← hid]
            exact hne
          simp [hrowid, hne2]

/-- C1 witness: on the example state (segment 0's 6s video on disk,
segment 1 at index 1), frame propagation stores the frame extracted at
offset 5.9s into segment 1's first-frame file and records the reference. -/
theorem c1_witness :
    fsRead (extract_and_propagate_last_frame exC1St ("s0")).fs
        (storageTemp ++ ("first_frame_" ++ exSeg1.id ++ ".jpg")) =
      some (Media.frameImage (videoData exVideo)
        (max 0 (mediaDuration exVideo - 1/10))) ∧
    (getSegment (extract_and_propagate_last_frame exC1St ("s0")) exSeg1.id).map
        (fun s => s.first_frame_url) =
      some (some ("/temp/" ++ ("first_frame_" ++ exSeg1.id ++ ".jpg"))) := by
  have h := (c1_confirmed exC1St ("s0") exC1Seg0 ("/output/v0.mp4")
    (by decide) (by decide)).2 exVideo (by rfl)
  have h2 := h.2.2 exSeg1 (by decide) (by decide) (by decide)
  exact ⟨h2.2.1, h2.2.2⟩

/-- Writing a file never makes another file unreadable. -/
theorem fsRead_isSome_fsWrite (fs : FS) (p q : String) (m : Media)
    (h : (fsRead fs q).isSome = true) :
    (fsRead (fsWrite fs p m) q).isSome = true := by
  by_cases hpq : q = p
  · subst hpq
    rw [fsRead_fsWrite_same]
    rfl
  · rw [fsRead_fsWrite_other fs p q m hpq]
    exact h

/-- The finalization collector succeeds when every referenced video and
audio file is readable, and its contributions are exactly the segments with
a non-null video reference, in list order, each contributing its muxed temp
file (when it has audio) or its raw video file (when it has none). -/
theorem collect_ok (segs : List Segment) (fs : FS)
    (hv : ∀ s ∈ segs, ∀ u, s.video_url = some u →
      (fsRead fs (url_to_file_path u)).isSome = true)
    (ha : ∀ s ∈ segs, ∀ u, s.audio_url = some u →
      (fsRead fs (url_to_file_path u)).isSome = true) :
    ∃ fs1 contributions temp_files,
      collectSegmentContributions fs segs =
        Except.ok (fs1, contributions, temp_files) ∧
      contributions.map (fun c => c.1) =
        (segs.filter (fun s => s.video_url.isSome)).map contributionPath := by
  induction segs generalizing fs with
  | nil => exact ⟨fs, [], [], rfl, rfl⟩
  | cons seg rest ih =>
    have hvrest : ∀ s ∈ rest, ∀ u, s.video_url = some u →
        (fsRead fs (url_to_file_path u)).isSome = true :=
      fun s hs => hv s (List.mem_cons_of_mem seg hs)
    have harest : ∀ s ∈ rest, ∀ u, s.audio_url = some u →
        (fsRead fs (url_to_file_path u)).isSome = true :=
      fun s hs => ha s (List.mem_cons_of_mem seg hs)
    cases hvu : seg.video_url with
    | none =>
      obtain ⟨fs1, cs, temps, hcol, hmap⟩ := ih fs hvrest harest
      refine ⟨fs1, cs, temps, ?_, ?_⟩
      · unfold collectSegmentContributions
        rw [hvu]
        exact hcol
      · rw [hmap]
        have : seg.video_url.isSome = false := by rw [hvu]; rfl
        simp [List.filter_cons, this]
    | some u =>
      obtain ⟨video, hvid⟩ := Option.isSome_iff_exists.mp
        (hv seg (List.mem_cons_self seg rest) u hvu)
      have hsegSome : seg.video_url.isSome = true := by rw [hvu]; rfl
      cases hau : seg.audio_url with
      | none =>
        obtain ⟨fs1, cs, temps, hcol, hmap⟩ := ih fs hvrest harest
        refine ⟨fs1, (url_to_file_path u, video) :: cs, temps, ?_, ?_⟩
        · unfold collectSegmentContributions
          rw [hvu]
          dsimp only
          rw [hvid]
          dsimp only
          rw [hau]
          dsimp only
          rw [hcol]
        · have hcp : contributionPath seg = url_to_file_path u := by
            unfold contributionPath
            rw [hau]
            dsimp only
            rw [hvu]
            rfl
          simp [List.filter_cons, hsegSome, hmap, hcp]
      | some au =>
        obtain ⟨audio, haud⟩ := Option.isSome_iff_exists.mp
          (ha seg (List.mem_cons_self seg rest) au hau)
        obtain ⟨fs1, cs, temps, hcol, hmap⟩ := ih
          (fsWrite fs (storageTemp ++ "muxed_" ++ seg.id ++ ".mp4")
            (mux_segment_video_audio video audio))
          (fun s hs u' hu' => fsRead_isSome_fsWrite _ _ _ _ (hvrest s hs u' hu'))
          (fun s hs u' hu' => fsRead_isSome_fsWrite _ _ _ _ (harest s hs u' hu'))
        refine ⟨fs1,
          (storageTemp ++ "muxed_" ++ seg.id ++ ".mp4",
            mux_segment_video_audio video audio) :: cs,
          (storageTemp ++ "muxed_" ++ seg.id ++ ".mp4") :: temps, ?_, ?_⟩
        · unfold collectSegmentContributions
          rw [hvu]
          dsimp only
          rw [hvid]
          dsimp only
          rw [hau]
          dsimp only
          rw [haud]
          dsimp only
          rw [hcol]
        · have hcp : contributionPath seg =
              storageTemp ++ "muxed_" ++ seg.id ++ ".mp4" := by
            unfold contributionPath
            rw [hau]
          simp [List.filter_cons, hsegSome, hmap, hcp]

/-- A string whose character data extends the prefix's starts with it. -/
theorem strStartsWith_data (s p : String) (h : ∃ l, s.data = p.data ++ l) :
    strStartsWith s p = true := by
  obtain ⟨l, hl⟩ := h
  unfold strStartsWith
  rw [hl, List.take_left]
  simp

/-- The muxed temp paths written by the finalization loop start with the
temp-storage root. -/
theorem strStartsWith_mux (a b c d : String) :
    strStartsWith (a ++ b ++ c ++ d) a = true := by
  apply strStartsWith_data
  refine ⟨(b ++ c ++ d).data, ?_⟩
  simp [String.data_append]

/-- Two strings differing on a prefix test are distinct. -/
theorem ne_of_startsWith (p q pre : String) (h1 : strStartsWith p pre = true)
    (h2 : strStartsWith q pre = false) : q ≠ p := by
  intro heq
  rw [heq, h1] at h2
  cases h2

/-- Running the finalization loop over a prefix whose referenced files are
all readable only adds muxed files under the temp root: there is an
intermediate filesystem that agrees with the original outside the temp
root, preserves file presence, and propagates any error of the remaining
tail to the whole run. -/
theorem collect_error_prefix (pre : List Segment) (fs : FS)
    (hv : ∀ s ∈ pre, ∀ u, s.video_url = some u →
      (fsRead fs (url_to_file_path u)).isSome = true)
    (ha : ∀ s ∈ pre, ∀ u, s.audio_url = some u →
      (fsRead fs (url_to_file_path u)).isSome = true) :
    ∃ fs2,
      (∀ p, strStartsWith p storageTemp = false → fsRead fs2 p = fsRead fs p) ∧
      (∀ p, (fsRead fs p).isSome = true → (fsRead fs2 p).isSome = true) ∧
      (∀ tail e, collectSegmentContributions fs2 tail = Except.error e →
        collectSegmentContributions fs (pre ++ tail) = Except.error e) := by
  induction pre generalizing fs with
  | nil => exact ⟨fs, fun _ _ => rfl, fun _ h => h, fun _ _ h => h⟩
  | cons seg rest ih =>
    have hvrest : ∀ s ∈ rest, ∀ u, s.video_url = some u →
        (fsRead fs (url_to_file_path u)).isSome = true :=
      fun s hs => hv s (List.mem_cons_of_mem seg hs)
    have harest : ∀ s ∈ rest, ∀ u, s.audio_url = some u →
        (fsRead fs (url_to_file_path u)).isSome = true :=
      fun s hs => ha s (List.mem_cons_of_mem seg hs)
    cases hvu : seg.video_url with
    | none =>
      obtain ⟨fs2, hnt, hmono, herr⟩ := ih fs hvrest harest
      refine ⟨fs2, hnt, hmono, fun tail e h => ?_⟩
      rw [List.cons_append]
      unfold collectSegmentContributions
      rw [hvu]
      exact herr tail e h
    | some u =>
      obtain ⟨video, hvid⟩ := Option.isSome_iff_exists.mp
        (hv seg (List.mem_cons_self seg rest) u hvu)
      cases hau : seg.audio_url with
      | none =>
        obtain ⟨fs2, hnt, hmono, herr⟩ := ih fs hvrest harest
        refine ⟨fs2, hnt, hmono, fun tail e h => ?_⟩
        rw [List.cons_append]
        unfold collectSegmentContributions
        rw [hvu]
        dsimp only
        rw [hvid]
        dsimp only
        rw [hau]
        dsimp only
        rw [herr tail e h]
      | some au =>
        obtain ⟨audio, haud⟩ := Option.isSome_iff_exists.mp
          (ha seg (List.mem_cons_self seg rest) au hau)
        obtain ⟨fs2, hnt, hmono, herr⟩ := ih
          (fsWrite fs (storageTemp ++ "muxed_" ++ seg.id ++ ".mp4")
            (mux_segment_video_audio video audio))
          (fun s hs u' hu' => fsRead_isSome_fsWrite _ _ _ _ (hvrest s hs u' hu'))
          (fun s hs u' hu' => fsRead_isSome_fsWrite _ _ _ _ (harest s hs u' hu'))
        refine ⟨fs2, ?_, ?_, fun tail e h => ?_⟩
        · intro p hp
          rw [hnt p hp]
          exact fsRead_fsWrite_other fs _ p _
            (ne_of_startsWith _ p storageTemp
              (strStartsWith_mux storageTemp ("muxed_") seg.id (".mp4")) hp)
        · intro p hp
          exact hmono p (fsRead_isSome_fsWrite _ _ _ _ hp)
        · rw [List.cons_append]
          unfold collectSegmentContributions
          rw [hvu]
          dsimp only
          rw [hvid]
          dsimp only
          rw [hau]
          dsimp only
          rw [haud]
          dsimp only
          rw [herr tail e h]

/-- C10 counterexample: a project whose single SEGMENT_APPROVED segment has
a null video reference.  The segment is skipped, but finalization then
raises the empty-concatenation error — so a null reference is not always a
silent no-op for the operation, and an error can arise with no non-null
reference whose file is missing. -/
theorem c10_counterexample :
    finalize_project_video exFinFs ("p") [exFinSeg1] =
      Except.error ("No video segments to concatenate") ∧
    exFinSeg1.video_url = none := by
  exact ⟨by rfl, by decide⟩

/-- C10 (amended): during finalization, every segment with a null video
reference is skipped (a logged warning) and contributes nothing, so when
every referenced video/audio file is present and at least one segment has a
non-null video reference, finalization completes with exactly the non-null
segments, in index order, as the concatenated contributions — possibly
fewer than segment_count (first conjunct).  A non-null video reference
whose file is absent from storage raises an error naming the segment's
1-based position (second conjunct), as does a non-null audio reference
whose file is absent while the video is present (third conjunct); the
prefix hypotheses say the failing segment is the first problem the
index-ordered loop meets, and the temp-root side conditions say the missing
path is not one the loop itself writes.  When every segment is skipped the
empty concatenation list raises its own error (the counterexample). -/
theorem c10_amended :
    (∀ (fs : FS) (project_id : String) (segs : List Segment),
      (∀ s ∈ segs, ∀ u, s.video_url = some u →
        (fsRead fs (url_to_file_path u)).isSome = true) →
      (∀ s ∈ segs, ∀ u, s.audio_url = some u →
        (fsRead fs (url_to_file_path u)).isSome = true) →
      (∃ s ∈ segs, s.video_url.isSome = true) →
      ∃ fs1 contributions temp_files,
        collectSegmentContributions fs (sortByIndex segs) =
          Except.ok (fs1, contributions, temp_files) ∧
        contributions.map (fun c => c.1) =
          ((sortByIndex segs).filter (fun s => s.video_url.isSome)).map
            contributionPath ∧
        contributions ≠ [] ∧
        finalize_project_video fs project_id segs =
          Except.ok (fsRemoveAll
            (fsWrite fs1 (storageOutput ++ "final_" ++ project_id ++ ".mp4")
              (Media.concatFiles (contributions.map (fun c => c.2))))
            temp_files,
            "/output/final_" ++ project_id ++ ".mp4")) ∧
    (∀ (fs : FS) (project_id : String) (segs pre rest : List Segment)
        (seg : Segment) (u : String),
      sortByIndex segs = pre ++ seg :: rest →
      (∀ s ∈ pre, ∀ u2, s.video_url = some u2 →
        (fsRead fs (url_to_file_path u2)).isSome = true) →
      (∀ s ∈ pre, ∀ u2, s.audio_url = some u2 →
        (fsRead fs (url_to_file_path u2)).isSome = true) →
      seg.video_url = some u →
      strStartsWith (url_to_file_path u) storageTemp = false →
      fsRead fs (url_to_file_path u) = none →
      finalize_project_video fs project_id segs =
        Except.error ("Video file not found for segment " ++
          toString (seg.index + 1))) ∧
    (∀ (fs : FS) (project_id : String) (segs pre rest : List Segment)
        (seg : Segment) (u au : String),
      sortByIndex segs = pre ++ seg :: rest →
      (∀ s ∈ pre, ∀ u2, s.video_url = some u2 →
        (fsRead fs (url_to_file_path u2)).isSome = true) →
      (∀ s ∈ pre, ∀ u2, s.audio_url = some u2 →
        (fsRead fs (url_to_file_path u2)).isSome = true) →
      seg.video_url = some u →
      (fsRead fs (url_to_file_path u)).isSome = true →
      seg.audio_url = some au →
      strStartsWith (url_to_file_path au) storageTemp = false →
      fsRead fs (url_to_file_path au) = none →
      finalize_project_video fs project_id segs =
        Except.error ("Audio file not found for segment " ++
          toString (seg.index + 1))) := by
  refine ⟨?_, ?_, ?_⟩
  · intro fs project_id segs hv ha hsome
    obtain ⟨fs1, cs, temps, hcol, hmap⟩ := collect_ok (sortByIndex segs) fs
      (fun s hs => hv s ((mem_sortByIndex s segs).mp hs))
      (fun s hs => ha s ((mem_sortByIndex s segs).mp hs))
    obtain ⟨s0, hs0, hs0v⟩ := hsome
    have hs0filter : s0 ∈ (sortByIndex segs).filter (fun s => s.video_url.isSome) :=
      List.mem_filter.mpr ⟨(mem_sortByIndex s0 segs).mpr hs0, hs0v⟩
    have hcsne : cs ≠ [] := by
      intro hnil
      rw [hnil] at hmap
      have : (sortByIndex segs).filter (fun s => s.video_url.isSome) = [] :=
        List.map_eq_nil_iff.mp hmap.symm
      rw [this] at hs0filter
      cases hs0filter
    have hcsempty : cs.isEmpty = false := by
      cases cs with
      | nil => exact absurd rfl hcsne
      | cons c cs' => rfl
    refine ⟨fs1, cs, temps, hcol, hmap, hcsne, ?_⟩
    unfold finalize_project_video
    rw [hcol]
    dsimp only
    rw [hcsempty]
    rfl
  · intro fs project_id segs pre rest seg u hsort hv ha hvu hnt hmiss
    obtain ⟨fs2, hntp, hmono, herr⟩ := collect_error_prefix pre fs hv ha
    have hread : fsRead fs2 (url_to_file_path u) = none := by
      rw [hntp _ hnt]
      exact hmiss
    have hcol : collectSegmentContributions fs2 (seg :: rest) =
        Except.error ("Video file not found for segment " ++
          toString (seg.index + 1)) := by
      unfold collectSegmentContributions
      rw [hvu]
      dsimp only
      rw [hread]
    have hfull := herr (seg :: rest) _ hcol
    unfold finalize_project_video
    rw [hsort, hfull]
  · intro fs project_id segs pre rest seg u au hsort hv ha hvu hvpres hau hant hamiss
    obtain ⟨fs2, hntp, hmono, herr⟩ := collect_error_prefix pre fs hv ha
    obtain ⟨video, hvid⟩ := Option.isSome_iff_exists.mp (hmono _ hvpres)
    have haread : fsRead fs2 (url_to_file_path au) = none := by
      rw [hntp _ hant]
      exact hamiss
    have hcol : collectSegmentContributions fs2 (seg :: rest) =
        Except.error ("Audio file not found for segment " ++
          toString (seg.index + 1)) := by
      unfold collectSegmentContributions
      rw [hvu]
      dsimp only
      rw [hvid]
      dsimp only
      rw [hau]
      dsimp only
      rw [haread]
    have hfull := herr (seg :: rest) _ hcol
    unfold finalize_project_video
    rw [hsort, hfull]

/-- C10 witness: the two-segment example — segment 0 with video and audio
on disk, segment 1 with no video — finalizes successfully; with an empty
storage the same segment 0 raises the video-not-found error naming
position 1, and with only its video on disk it raises the audio-not-found
error naming position 1. -/
theorem c10_witness :
    (finalize_project_video exFinFs ("p") [exFinSeg0, exFinSeg1]).isOk = true ∧
    finalize_project_video [] ("p") [exFinSeg0] =
      Except.error ("Video file not found for segment 1") ∧
    finalize_project_video [(storageOutput ++ "v0.mp4", exVideo)] ("p")
        [exFinSeg0] =
      Except.error ("Audio file not found for segment 1") := by
  refine ⟨?_, ?_, ?_⟩
  · have hv : ∀ s ∈ [exFinSeg0, exFinSeg1], ∀ u, s.video_url = some u →
        (fsRead exFinFs (url_to_file_path u)).isSome = true := by
      intro s hs u hu
      simp only [List.mem_cons, List.not_mem_nil, or_false] at hs
      rcases hs with rfl | rfl
      · have hu' : some ("/output/v0.mp4") = some u := hu
        injection hu' with hu''
        subst hu''
        decide
      · have hu' : (none : Option String) = some u := hu
        cases hu'
    have ha : ∀ s ∈ [exFinSeg0, exFinSeg1], ∀ u, s.audio_url = some u →
        (fsRead exFinFs (url_to_file_path u)).isSome = true := by
      intro s hs u hu
      simp only [List.mem_cons, List.not_mem_nil, or_false] at hs
      rcases hs with rfl | rfl
      · have hu' : some ("/output/a0.mp3") = some u := hu
        injection hu' with hu''
        subst hu''
        decide
      · have hu' : (none : Option String) = some u := hu
        cases hu'
    obtain ⟨fs1, cs, temps, -, -, -, hfin⟩ :=
      c10_amended.1 exFinFs ("p") [exFinSeg0, exFinSeg1] hv ha
        ⟨exFinSeg0, by decide, by decide⟩
    rw [hfin]
    rfl
  · exact c10_amended.2.1 [] ("p") [exFinSeg0] [] [] exFinSeg0
      ("/output/v0.mp4") rfl
      (fun s hs => absurd hs (List.not_mem_nil s))
      (fun s hs => absurd hs (List.not_mem_nil s))
      rfl (by decide) rfl
  · exact c10_amended.2.2 [(storageOutput ++ "v0.mp4", exVideo)] ("p")
      [exFinSeg0] [] [] exFinSeg0 ("/output/v0.mp4") ("/output/a0.mp3") rfl
      (fun s hs => absurd hs (List.not_mem_nil s))
      (fun s hs => absurd hs (List.not_mem_nil s))
      rfl rfl rfl (by decide) rfl

/-- With unique ids, any row carrying the looked-up id is the found row. -/
theorem getSegment_unique (st : WorkflowState) (sid : String) (seg : Segment)
    (hnd : idsNodup st) (h0 : getSegment st sid = some seg) :
    ∀ s ∈ st.segments, s.id = sid → s = seg := by
  intro s hs hsid
  have hmem : seg ∈ st.segments := List.mem_of_find?_eq_some h0
  have hsegid : seg.id = sid := getSegment_id st sid seg h0
  exact List.inj_on_of_nodup_map hnd hs hmem (by rw [hsid, hsegid])

/-- A row update preserves the invariant when it preserves each targeted
row's per-segment invariant. -/
theorem invariant_update (st : WorkflowState) (id1 : String)
    (f : Segment → Segment) (hinv : invariant st)
    (hpres : ∀ s ∈ st.segments, s.id = id1 → segInv s → segInv (f s)) :
    invariant (updateSegmentRow st id1 f) := by
  intro s' hs'
  obtain ⟨s, hs, rfl⟩ := List.mem_map.1 hs'
  by_cases hc : s.id = id1
  · rw [if_pos hc]
    exact hpres s hs hc (hinv s hs)
  · rw [if_neg hc]
    exact hinv s hs

/-- Id-preserving row updates keep ids unique. -/
theorem idsNodup_update (st : WorkflowState) (id1 : String)
    (f : Segment → Segment) (hf : ∀ s, (f s).id = s.id) (hnd : idsNodup st) :
    idsNodup (updateSegmentRow st id1 f) := by
  unfold idsNodup
  rw [ids_update st id1 f hf]
  exact hnd

/-- Frame propagation preserves the approved-flag invariant. -/
theorem invariant_extract (st : WorkflowState) (sid : String)
    (hinv : invariant st) :
    invariant (extract_and_propagate_last_frame st sid) := by
  obtain ⟨h, hprop, hsegs, -⟩ := extract_propagate_core st sid
  intro s' hs'
  rw [hsegs] at hs'
  obtain ⟨s, hs, rfl⟩ := List.mem_map.1 hs'
  have hsi := hinv s hs
  unfold segInv at hsi ⊢
  rw [(hprop s).2.1, (hprop s).2.2.1]
  exact hsi

/-- Frame propagation keeps ids unique. -/
theorem idsNodup_extract (st : WorkflowState) (sid : String)
    (hnd : idsNodup st) :
    idsNodup (extract_and_propagate_last_frame st sid) := by
  obtain ⟨h, hprop, hsegs, -⟩ := extract_propagate_core st sid
  unfold idsNodup
  rw [hsegs, List.map_map]
  have hcomp : ((fun s => s.id) ∘ h) = fun s : Segment => s.id :=
    funext fun s => (hprop s).1
  rw [hcomp]
  exact hnd

/-- The download branch preserves the approved-flag invariant. -/
theorem invariant_record (st : WorkflowState) (sid : String) (seg : Segment)
    (video : Media) (hinv : invariant st) :
    invariant (record_downloaded_video st sid seg video) := by
  unfold record_downloaded_video
  apply invariant_extract
  apply invariant_update _ _ _ hinv
  intro s _ _ hsi
  exact hsi

/-- The download branch keeps ids unique. -/
theorem idsNodup_record (st : WorkflowState) (sid : String) (seg : Segment)
    (video : Media) (hnd : idsNodup st) :
    idsNodup (record_downloaded_video st sid seg video) := by
  unfold record_downloaded_video
  apply idsNodup_extract
  apply idsNodup_update
  · exact fun s => rfl
  · exact hnd

/-- Elements of the plan-writing zip: each output row is an input row,
either untouched or written with some plan entry. -/
theorem applyPlan_mem (ss : List Segment) (ps : List SegmentPrompt)
    (s' : Segment) (h : s' ∈ applyPlan ss ps) :
    (∃ s ∈ ss, s' = s) ∨ (∃ s ∈ ss, ∃ p, s' = writePlanPrompt s p) := by
  induction ss generalizing ps with
  | nil => simp [applyPlan] at h
  | cons s rest ih =>
    cases ps with
    | nil =>
      exact Or.inl ⟨s', h, rfl⟩
    | cons p ps' =>
      rcases List.mem_cons.1 h with rfl | htail
      · exact Or.inr ⟨s, List.mem_cons_self s rest, p, rfl⟩
      · rcases ih ps' htail with ⟨t, ht, hteq⟩ | ⟨t, ht, q, hteq⟩
        · exact Or.inl ⟨t, List.mem_cons_of_mem s ht, hteq⟩
        · exact Or.inr ⟨t, List.mem_cons_of_mem s ht, q, hteq⟩

/-- The plan-writing zip keeps the id column. -/
theorem applyPlan_ids (ss : List Segment) (ps : List SegmentPrompt) :
    (applyPlan ss ps).map (fun s => s.id) = ss.map (fun s => s.id) := by
  induction ss generalizing ps with
  | nil => simp [applyPlan]
  | cons s rest ih =>
    cases ps with
    | nil => rfl
    | cons p ps' =>
      simp only [applyPlan, List.map_cons, ih]
      rfl

/-- Inserting into a sorted list is a permutation of prepending. -/
theorem insertByIndex_perm (s : Segment) (l : List Segment) :
    List.Perm (insertByIndex s l) (s :: l) := by
  induction l with
  | nil => exact List.Perm.refl _
  | cons t rest ih =>
    unfold insertByIndex
    by_cases h : s.index ≤ t.index
    · rw [if_pos h]
    · rw [if_neg h]
      exact List.Perm.trans (ih.cons t) (List.Perm.swap s t rest)

/-- Sorting by index permutes the list. -/
theorem sortByIndex_perm (l : List Segment) :
    List.Perm (sortByIndex l) l := by
  induction l with
  | nil => exact List.Perm.refl _
  | cons s rest ih =>
    unfold sortByIndex
    exact List.Perm.trans (insertByIndex_perm s (sortByIndex rest)) (ih.cons s)

/-- `clone_voice` never touches the segment rows. -/
theorem clone_voice_segments (st : WorkflowState) (outcome : Bool)
    (voice_name : Option String) :
    (clone_voice st outcome voice_name).1.segments = st.segments := by
  unfold clone_voice
  split
  · rfl
  · split
    · rfl
    · split <;> rfl

/-- `finalize_project` never touches the segment rows. -/
theorem finalize_project_segments (st : WorkflowState) :
    (finalize_project st).1.segments = st.segments := by
  unfold finalize_project
  split
  · rfl
  · split <;> rfl

/-- The GENERATED flip at the end of `check_segment_complete` preserves the
approved-flag invariant and id uniqueness: it only fires on a segment that
is GENERATING, which by the invariant is already approved. -/
theorem check_flip_preserves (st1 : WorkflowState) (segment_id : String)
    (st' : WorkflowState)
    (h : ((match getSegment st1 segment_id with
          | none => Except.ok st1
          | some segment1 =>
            if segment1.video_url.isSome = true ∧
                segment1.audio_url.isSome = true ∧
                segment1.status = SegmentStatus.GENERATING then
              Except.ok (updateSegmentRow st1 segment_id (fun s =>
                { s with status := SegmentStatus.GENERATED }))
            else Except.ok st1) : Except String WorkflowState) = Except.ok st')
    (hinv : invariant st1) (hnd : idsNodup st1) :
    invariant st' ∧ idsNodup st' := by
  split at h
  · injection h with h'
    subst h'
    exact ⟨hinv, hnd⟩
  next segment1 hseg1 =>
    split at h
    · next hc =>
      injection h with h'
      subst h'
      have hmem : segment1 ∈ st1.segments := List.mem_of_find?_eq_some hseg1
      have hsi := hinv segment1 hmem
      unfold segInv at hsi
      have happ : segment1.approved = true :=
        hsi.mpr (by rw [hc.2.2]; simp [approvalStatuses])
      constructor
      · apply invariant_update _ _ _ hinv
        intro s hs hsid _
        have hse : s = segment1 :=
          getSegment_unique st1 segment_id segment1 hnd hseg1 s hs hsid
        subst hse
        unfold segInv
        simp [approvalStatuses, happ]
      · apply idsNodup_update
        · exact fun s => rfl
        · exact hnd
    · injection h with h'
      subst h'
      exact ⟨hinv, hnd⟩

/-- C7 counterexample: `request_regenerate` performs no status or
approved-flag check, so calling it on a freshly created (PENDING,
unapproved) segment yields status APPROVED with `approved = false` — the
biconditional between the approved flag and the post-approval statuses
fails on a state reached by the repository's own operations. -/
theorem c7_counterexample :
    request_regenerate exCreated ("seg0") = Except.ok exRegen ∧
    ¬ invariant exRegen := by
  constructor
  · rfl
  · decide

/-- C7 (amended): the approved-flag invariant — `approved = true` exactly
when the status is one of APPROVED, GENERATING, GENERATED or
SEGMENT_APPROVED — holds at project creation and is preserved by every
workflow operation under the update discipline of `RStep`: regeneration and
external completion are invoked only on already-approved segments and plan
generation only before any approval (without those side conditions
`request_regenerate` breaks the invariant, as the counterexample shows).
Unique segment ids (a database constraint) are preserved alongside. -/
theorem c7_amended :
    (∀ (user_id project_id : String) (segment_ids : Nat → String)
        (data : ProjectCreate),
      invariant (create_project user_id project_id segment_ids data)) ∧
    (∀ st st' : WorkflowState, invariant st → idsNodup st → RStep st st' →
      invariant st' ∧ idsNodup st') := by
  constructor
  · intro user_id project_id segment_ids data s hs
    obtain ⟨i, hi, rfl⟩ := List.mem_map.1 hs
    unfold segInv
    simp [approvalStatuses]
  · intro st st' hinv hnd hstep
    cases hstep with
    | approve segment_id h =>
      unfold approve_segment at h
      split at h
      · exact Except.noConfusion h
      next seg heq =>
        split at h
        · exact Except.noConfusion h
        next hstat =>
          injection h with h'
          subst h'
          constructor
          · apply invariant_update _ _ _ hinv
            intro s hs hsid _
            unfold segInv
            simp [approvalStatuses]
          · apply idsNodup_update
            · exact fun s => rfl
            · exact hnd
    | approveVideo segment_id h =>
      unfold approve_generated_video at h
      split at h
      · exact Except.noConfusion h
      next seg heq =>
        split at h
        · exact Except.noConfusion h
        next hstat =>
          injection h with h'
          subst h'
          have hgen : seg.status = SegmentStatus.GENERATED := not_not.mp hstat
          have hsi := hinv seg (List.mem_of_find?_eq_some heq)
          unfold segInv at hsi
          have happ : seg.approved = true :=
            hsi.mpr (by rw [hgen]; simp [approvalStatuses])
          constructor
          · apply invariant_update _ _ _ hinv
            intro s hs hsid _
            have hse : s = seg :=
              getSegment_unique st segment_id seg hnd heq s hs hsid
            subst hse
            unfold segInv
            simp [approvalStatuses, happ]
          · apply idsNodup_update
            · exact fun s => rfl
            · exact hnd
    | startGeneration segment_id task_id tts_result h =>
      unfold start_segment_generation at h
      split at h
      · exact Except.noConfusion h
      next seg heq =>
        split at h
        · exact Except.noConfusion h
        next hproj =>
          split at h
          · exact Except.noConfusion h
          next happF =>
            have happ : seg.approved = true := by
              cases hb : seg.approved
              · exact absurd hb happF
              · rfl
            dsimp only at h
            cases hfu : seg.first_frame_url.or st.project.first_frame_url with
            | none =>
              rw [hfu] at h
              exact Except.noConfusion h
            | some frame_url =>
              rw [hfu] at h
              dsimp only at h
              cases hb64 : url_to_base64_data_url st.fs frame_url with
              | error e =>
                rw [hb64] at h
                exact Except.noConfusion h
              | ok media =>
                rw [hb64] at h
                dsimp only at h
                have hbase : invariant (updateSegmentRow
                    { st with project := { st.project with
                        status := ProjectStatus.GENERATING } }
                    segment_id (fun s =>
                      { s with status := SegmentStatus.GENERATING,
                               video_task_id := some task_id })) := by
                  apply invariant_update _ _ _ hinv
                  intro s hs hsid _
                  have hse : s = seg :=
                    getSegment_unique st segment_id seg hnd heq s hs hsid
                  subst hse
                  unfold segInv
                  simp [approvalStatuses, happ]
                have hbnd : idsNodup (updateSegmentRow
                    { st with project := { st.project with
                        status := ProjectStatus.GENERATING } }
                    segment_id (fun s =>
                      { s with status := SegmentStatus.GENERATING,
                               video_task_id := some task_id })) := by
                  apply idsNodup_update
                  · exact fun s => rfl
                  · exact hnd
                by_cases hvn : st.project.voice_id.isSome = true ∧
                    seg.narration_text.isSome = true
                · rw [if_pos hvn] at h
                  cases tts_result with
                  | none =>
                    dsimp only at h
                    injection h with h'
                    subst h'
                    exact ⟨hbase, hbnd⟩
                  | some audio =>
                    dsimp only at h
                    injection h with h'
                    subst h'
                    constructor
                    · apply invariant_update _ _ _ hbase
                      intro s _ _ hsi
                      exact hsi
                    · apply idsNodup_update
                      · exact fun s => rfl
                      · exact hbnd
                · rw [if_neg hvn] at h
                  injection h with h'
                  subst h'
                  exact ⟨hbase, hbnd⟩
    | checkComplete segment_id poll h =>
      unfold check_segment_complete at h
      split at h
      · exact Except.noConfusion h
      next seg heq =>
        dsimp only at h
        by_cases hcond : seg.video_task_id.isSome = true ∧
            seg.video_url = none ∧ seg.status = SegmentStatus.GENERATING
        · rw [if_pos hcond] at h
          cases poll with
          | success video =>
            dsimp only at h
            exact check_flip_preserves _ _ _ h
              (invariant_record st segment_id seg video hinv)
              (idsNodup_record st segment_id seg video hnd)
          | failed =>
            dsimp only at h
            exact check_flip_preserves _ _ _ h hinv hnd
          | processing =>
            dsimp only at h
            exact check_flip_preserves _ _ _ h hinv hnd
        · rw [if_neg hcond] at h
          exact check_flip_preserves _ _ _ h hinv hnd
    | regenerate segment_id happroved h =>
      unfold request_regenerate at h
      split at h
      · exact Except.noConfusion h
      next seg heq =>
        injection h with h'
        subst h'
        constructor
        · apply invariant_update _ _ _ hinv
          intro s hs hsid _
          have happ := happroved s hs hsid
          unfold segInv
          simp [approvalStatuses, happ]
        · apply idsNodup_update
          · exact fun s => rfl
          · exact hnd
    | completeGeneration segment_id video_url happroved =>
      unfold complete_segment_generation
      cases heq : getSegment st segment_id with
      | none => exact ⟨hinv, hnd⟩
      | some seg =>
        dsimp only
        constructor
        · apply invariant_update _ _ _ hinv
          intro s hs hsid _
          have happ := happroved s hs hsid
          unfold segInv
          simp [approvalStatuses, happ]
        · apply idsNodup_update
          · exact fun s => rfl
          · exact hnd
    | plan story_prompt plan_segments hunapproved =>
      constructor
      · intro s' hs'
        rcases applyPlan_mem (sortByIndex st.segments) plan_segments s' hs'
          with ⟨s, hs, hseq⟩ | ⟨s, hs, p, hseq⟩
        · rw [hseq]
          exact hinv s ((mem_sortByIndex s st.segments).mp hs)
        · rw [hseq]
          have happF := hunapproved s ((mem_sortByIndex s st.segments).mp hs)
          unfold segInv writePlanPrompt
          simp [approvalStatuses, happF]
      · show ((applyPlan (sortByIndex st.segments) plan_segments).map
          (fun s => s.id)).Nodup
        rw [applyPlan_ids]
        have hperm := (sortByIndex_perm st.segments).map (fun s : Segment => s.id)
        exact hperm.nodup_iff.mpr hnd
    | updateSeg segment_id data h =>
      unfold update_segment at h
      split at h
      · exact Except.noConfusion h
      next seg heq =>
        injection h with h'
        subst h'
        constructor
        · apply invariant_update _ _ _ hinv
          intro s _ _ hsi
          exact hsi
        · apply idsNodup_update
          · exact fun s => rfl
          · exact hnd
    | removeFrame segment_id h =>
      unfold remove_last_frame at h
      split at h
      · exact Except.noConfusion h
      next seg heq =>
        split at h
        · exact Except.noConfusion h
        next hng =>
          injection h with h'
          subst h'
          constructor
          · apply invariant_update _ _ _ hinv
            intro s _ _ hsi
            exact hsi
          · apply idsNodup_update
            · exact fun s => rfl
            · exact hnd
    | cloneVoiceStep outcome voice_name =>
      constructor
      · intro s hs
        rw [clone_voice_segments] at hs
        exact hinv s hs
      · show (((clone_voice st outcome voice_name).1.segments).map
          (fun s => s.id)).Nodup
        rw [clone_voice_segments]
        exact hnd
    | updateProjectStep data =>
      exact ⟨fun s hs => hinv s hs, hnd⟩
    | finalizeStep =>
      constructor
      · intro s hs
        rw [finalize_project_segments] at hs
        exact hinv s hs
      · show (((finalize_project st).1.segments).map (fun s => s.id)).Nodup
        rw [finalize_project_segments]
        exact hnd

/-- C7 witness: the invariant holds on the PROMPT_READY example state with
unique ids, and is preserved by an approve step. -/
theorem c7_witness :
    invariant exPromptSt ∧ idsNodup exPromptSt ∧ invariant exPromptApproved :=
  ⟨by decide, by decide,
    (c7_amended.2 exPromptSt exPromptApproved (by decide) (by decide)
      (RStep.approve ("s0") (by rfl))).1⟩

end VideoCreator
